import Mathlib

/-!
Verification of the BetBest core: the composite scoring engine
(`src/lib/prediction-engine.ts`), the entity-resolution helpers
(`src/lib/match-context-api.ts`, the ELO and xG lookups), and the
backtest harness (`src/scripts/backtest.ts`).

Modelling conventions.
* TypeScript `number` is modelled by `ℚ` (the engine only uses field
  arithmetic, `Math.floor`, `Math.max`, `Math.min` and comparisons on
  finite values); integer quantities use `ℕ`/`ℤ`.  `ℚ` has no `NaN`, and
  division by zero is total (returning 0), so the engine's final
  `Number.isNaN` fallback branch is provably unreachable in the model and
  is omitted with a note at the definition.
* `null`/`undefined` is modelled by `Option`.
* `Math.exp` and `Math.tanh` are transcendental and have no exact rational
  embedding; `calculateStats` therefore takes them as explicit function
  parameters `expQ tanhQ : ℚ → ℚ`.  All theorems either hold for every
  choice of these parameters or state the hypotheses on their values that
  the real functions satisfy; concrete evaluations instantiate them at
  points where the true values are rational (`exp 0 = 1`, `tanh 0 = 0`).
* JavaScript strings are modelled by `String`, with character-level
  helpers mirroring the exact `toLowerCase` / `split` / `includes` /
  regex-filter operations used by the source; Unicode case folding and
  NFD decomposition are modelled by translation tables covering the
  characters that occur in this repository's string literals.
* `Array.prototype.sort(cmp)` (stable since ES2019) is modelled by a
  stable insertion sort over the boolean relation `cmp a b <= 0`.
-/

namespace BetBest

/-- Lowercase ASCII letters and digits, the character class `[a-z0-9]`
used by the team-name normalizers. -/
def isAsciiAlnum (c : Char) : Bool :=
  ('a' ≤ c && c ≤ 'z') || ('0' ≤ c && c ≤ '9')

/-- Model of JavaScript `toLowerCase` at the character level: ASCII
letters plus the accented capitals appearing in this repository's data
tables. -/
def jsToLower (c : Char) : Char :=
  if 'A' ≤ c && c ≤ 'Z' then Char.ofNat (c.toNat + 32)
  else if c = 'É' then 'é'
  else if c = 'È' then 'è'
  else if c = 'Ê' then 'ê'
  else if c = 'Á' then 'á'
  else if c = 'À' then 'à'
  else if c = 'Â' then 'â'
  else if c = 'Ä' then 'ä'
  else if c = 'Ö' then 'ö'
  else if c = 'Ô' then 'ô'
  else if c = 'Ü' then 'ü'
  else if c = 'Û' then 'û'
  else if c = 'Ç' then 'ç'
  else if c = 'Ñ' then 'ñ'
  else if c = 'Í' then 'í'
  else if c = 'Î' then 'î'
  else if c = 'Ó' then 'ó'
  else if c = 'Ú' then 'ú'
  else c

/-- Model of `normalize("NFD").replace(/[̀-ͯ]/g, "")`: map a
precomposed accented character to its base character.  The table covers
the characters occurring in this repository's literals and data. -/
def nfdStrip (c : Char) : Char :=
  if c = 'é' || c = 'è' || c = 'ê' || c = 'ë' then 'e'
  else if c = 'á' || c = 'à' || c = 'â' || c = 'ä' || c = 'ã' then 'a'
  else if c = 'ö' || c = 'ô' || c = 'ó' || c = 'õ' then 'o'
  else if c = 'ü' || c = 'û' || c = 'ú' || c = 'ù' then 'u'
  else if c = 'ç' then 'c'
  else if c = 'ñ' then 'n'
  else if c = 'í' || c = 'î' || c = 'ï' then 'i'
  else if c = 'É' || c = 'È' || c = 'Ê' then 'E'
  else if c = 'Á' || c = 'À' || c = 'Â' || c = 'Ä' then 'A'
  else if c = 'Ö' || c = 'Ô' || c = 'Ó' then 'O'
  else if c = 'Ü' || c = 'Û' || c = 'Ú' then 'U'
  else if c = 'Ç' then 'C'
  else if c = 'Ñ' then 'N'
  else if c = 'Í' || c = 'Î' then 'I'
  else c

/-- Whitespace characters recognized by the string helpers. -/
def isWs (c : Char) : Bool :=
  c = ' ' || c = '\t' || c = '\n' || c = '\r'

/-- `l` starts with `pre` (character-wise). -/
def startsWithL : List Char → List Char → Bool
  | _, [] => true
  | [], _ :: _ => false
  | c :: l, p :: ps => c = p && startsWithL l ps

/-- Model of JavaScript `hay.includes(sub)`: `sub` occurs contiguously in
`hay`. -/
def containsSub (sub : List Char) : List Char → Bool
  | [] => sub.isEmpty
  | c :: l => startsWithL (c :: l) sub || containsSub sub l

/-- Model of JavaScript `s.split(sep)` for a single-character separator:
splits at every occurrence, keeping empty pieces. -/
def splitChar (sep : Char) : List Char → List (List Char)
  | [] => [[]]
  | c :: l =>
    let r := splitChar sep l
    if c = sep then [] :: r
    else
      match r with
      | [] => [[c]]
      | h :: t => (c :: h) :: t

/-- Model of `String.prototype.trim`. -/
def trimStr (s : String) : String :=
  String.mk (((s.toList.dropWhile isWs).reverse.dropWhile isWs).reverse)

/-- Model of JavaScript `Math.round`: round half toward positive
infinity. -/
def jsRound (q : ℚ) : ℤ := ⌊q + 1/2⌋

/-- Two-digit zero padding for `toFixed2`. -/
def pad2 (n : ℕ) : String := if n < 10 then "0" ++ toString n else toString n

/-- Model of `Number.prototype.toFixed(2)` on the rationals: decimal
rounding half-up.  Display-only; no claim depends on these strings. -/
def toFixed2 (q : ℚ) : String :=
  let s := jsRound (q * 100)
  let sign := if s < 0 then "-" else ""
  let n := s.natAbs
  sign ++ toString (n / 100) ++ "." ++ pad2 (n % 100)

/-- Display model for interpolating a number into a template literal.
Integers render exactly as JavaScript does; non-integers use a
numerator-slash-denominator form.  Display-only; no claim depends on
these strings. -/
def ratDisplay (q : ℚ) : String :=
  if q.den = 1 then toString q.num else toString q.num ++ "/" ++ toString q.den

/-- Stable insertion of `x` after every element `y` of the (sorted)
accumulator with `le y x`. -/
def insertLe (le : α → α → Bool) (x : α) : List α → List α
  | [] => [x]
  | y :: l => if le y x then y :: insertLe le x l else x :: y :: l

/-- Model of ECMAScript stable `Array.prototype.sort` with comparator
`cmp`, as a left fold of stable insertions with `le a b` meaning
`cmp(a, b) <= 0`. -/
def jsSortBy (le : α → α → Bool) (l : List α) : List α :=
  l.foldl (fun acc x => insertLe le x acc) []

/-- `safeNum` from `src/lib/prediction-engine.ts`: fall back on
`null`/`undefined` (`NaN` cannot arise in `ℚ`). -/
def safeNum (value : Option ℚ) (fallback : ℚ) : ℚ :=
  value.getD fallback

-- ===== Data model (src/lib/types.ts) =====

/-- `Team` from `src/lib/types.ts`. -/
structure Team where
  id : ℕ
  name : String
  shortName : String
  tla : String
  crest : String
deriving DecidableEq

/-- `Standing` from `src/lib/types.ts`. -/
structure Standing where
  position : ℕ
  team : Team
  playedGames : ℕ
  won : ℕ
  draw : ℕ
  lost : ℕ
  points : ℕ
  goalsFor : ℕ
  goalsAgainst : ℕ
  goalDifference : ℤ
  form : Option String
deriving DecidableEq

/-- `Injury` from `src/lib/types.ts`. -/
structure Injury where
  player : String
  type : String
  reason : String
deriving DecidableEq

/-- `KeyPlayer` from `src/lib/types.ts`; `role` is one of `"scorer"`,
`"assister"`, `"both"`. -/
structure KeyPlayer where
  playerId : ℕ
  name : String
  photo : String
  goals : ℚ
  assists : ℚ
  appearances : ℚ
  role : String
deriving DecidableEq

/-- `CriticalAbsence` from `src/lib/types.ts`; `impact` is `"high"` or
`"medium"`. -/
structure CriticalAbsence where
  player : KeyPlayer
  injury : Injury
  impact : String
deriving DecidableEq

/-- The home/away win-loss record inside `TacticalProfile`. -/
structure TacticsRecord where
  played : ℚ
  wins : ℚ
  draws : ℚ
  losses : ℚ
deriving DecidableEq

/-- The `cleanSheets` component of `TacticalProfile`. -/
structure CleanSheets where
  home : ℚ
  away : ℚ
  total : ℚ
deriving DecidableEq

/-- The `goalsAgainstAvg` component of `TacticalProfile` (strings in the
source, parsed with `parseFloat`). -/
structure GoalsAvg where
  home : String
  away : String
  total : String
deriving DecidableEq

/-- `TacticalProfile` from `src/lib/types.ts`, restricted to the fields
the scoring engine reads (`homeRecord`, `awayRecord`, `cleanSheets`,
`goalsAgainstAvg`); the remaining fields (formations, streaks, per-period
goals, …) are display-only and never consulted by the verified code. -/
structure TacticalProfile where
  homeRecord : TacticsRecord
  awayRecord : TacticsRecord
  goalsAgainstAvg : GoalsAvg
  cleanSheets : CleanSheets
deriving DecidableEq

/-- `HeadToHeadMatch` from `src/lib/types.ts`. -/
structure HeadToHeadMatch where
  date : String
  homeTeam : String
  awayTeam : String
  homeGoals : ℕ
  awayGoals : ℕ
deriving DecidableEq

/-- `HeadToHeadRecord` from `src/lib/types.ts`. -/
structure HeadToHeadRecord where
  «matches» : List HeadToHeadMatch
  team1Wins : ℚ
  draws : ℚ
  team2Wins : ℚ
deriving DecidableEq

/-- `RefereeProfile` from `src/lib/types.ts`. -/
structure RefereeProfile where
  name : String
  matchesOfficiated : ℚ
  avgYellowsPerMatch : ℚ
  avgRedsPerMatch : ℚ
  penaltiesAwarded : ℚ
deriving DecidableEq

/-- `MatchOdds` from `src/lib/types.ts`. -/
structure MatchOdds where
  homeWin : ℚ
  draw : ℚ
  awayWin : ℚ
  bookmaker : String
deriving DecidableEq

/-- `TeamFatigue` from `src/lib/types.ts`. -/
structure TeamFatigue where
  daysSinceLastMatch : Option ℤ
  daysUntilNextMatch : Option ℤ
  matchesLast30Days : ℚ
deriving DecidableEq

/-- `ScheduleFatigue` from `src/lib/types.ts`. -/
structure ScheduleFatigue where
  home : TeamFatigue
  away : TeamFatigue
deriving DecidableEq

/-- `Stakes` from `src/lib/types.ts`. -/
inductive Stakes where
  | title
  | europe
  | midtable
  | relegation
deriving DecidableEq

/-- `MatchContext` from `src/lib/types.ts`. -/
structure MatchContext where
  homeStakes : Stakes
  awayStakes : Stakes
  isDerby : Bool
deriving DecidableEq

/-- `TeamXG` as constructed by `src/lib/understat-api.ts` and consumed by
the engine.  The recent-form fields and `xGTrend` are optional in the
engine's reads (`!= null` guards), hence `Option ℚ`. -/
structure TeamXG where
  team : String
  «matches» : ℕ
  xG : ℚ
  xGA : ℚ
  xGPerMatch : ℚ
  xGAPerMatch : ℚ
  xGDiff : ℚ
  recentXGPerMatch : Option ℚ
  recentXGAPerMatch : Option ℚ
  xGTrend : Option ℚ
deriving DecidableEq

/-- `TeamElo` from `src/lib/types.ts`. -/
structure TeamElo where
  team : String
  elo : ℚ
deriving DecidableEq

/-- `StrengthOfSchedule` as constructed by `computeStrengthOfSchedule`
in `src/lib/football-api.ts` (the interface declaration itself is in a
part of `types.ts` not included in the provided sources; the shape is
reconstructed from its construction and read sites). -/
structure StrengthOfSchedule where
  teamId : ℕ
  recentOpponentsAvgPosition : ℚ
  recentOpponentsAvgPPM : ℚ
  sosScore : ℚ
deriving DecidableEq

/-- `CalculateStatsInput`: the destructured input of `calculateStats`
(the interface declaration is in a part of `types.ts` not included in the
provided sources; fields and optionality are reconstructed from the
destructuring in `src/lib/prediction-engine.ts` and all call sites). -/
structure CalculateStatsInput where
  homeStanding : Standing
  awayStanding : Standing
  homeInjuries : Option (List Injury) := none
  awayInjuries : Option (List Injury) := none
  homeSquadQuality : Option ℚ := none
  awaySquadQuality : Option ℚ := none
  headToHead : Option HeadToHeadRecord := none
  homeTactics : Option TacticalProfile := none
  awayTactics : Option TacticalProfile := none
  fatigue : Option ScheduleFatigue := none
  homeXG : Option TeamXG := none
  awayXG : Option TeamXG := none
  homeElo : Option TeamElo := none
  awayElo : Option TeamElo := none
  odds : Option MatchOdds := none
  homeSOS : Option StrengthOfSchedule := none
  awaySOS : Option StrengthOfSchedule := none
  homeCriticalAbsences : Option (List CriticalAbsence) := none
  awayCriticalAbsences : Option (List CriticalAbsence) := none
  matchContext : Option MatchContext := none
  referee : Option RefereeProfile := none

/-- One entry of the `factors` list of `StatsScore`. -/
structure Factor where
  label : String
  homeValue : String
  awayValue : String
  weight : ℚ
deriving DecidableEq

/-- `StatsScore` from `src/lib/types.ts`; the three percentages are the
integers produced by the largest-remainder rounding. -/
structure StatsScore where
  homeScore : ℤ
  drawScore : ℤ
  awayScore : ℤ
  factors : List Factor

-- ===== Scoring engine (src/lib/prediction-engine.ts) =====

/-- The recency weights of `formScore`. -/
def formWeights : List ℚ := [30/100, 25/100, 20/100, 15/100, 10/100]

/-- `formScore` from `src/lib/prediction-engine.ts`: recency-weighted
points from a comma-separated W/D/L string (an empty or missing string is
falsy in the source and yields the neutral 0.5). -/
def formScore (form : Option String) : ℚ :=
  match form with
  | none => 1/2
  | some f =>
    if f = "" then 1/2
    else
      let results := (f.splitOn ",").map trimStr
      if results.length = 0 then 1/2
      else
        let r := results.enum.foldl
          (fun (acc : ℚ × ℚ) (p : ℕ × String) =>
            let w := formWeights.getD p.1 (10/100)
            let pts : ℚ := if p.2 = "W" then 1 else if p.2 = "D" then 4/10 else 0
            (acc.1 + pts * w, acc.2 + w))
          (0, 0)
        if 0 < r.2 then r.1 / r.2 else 1/2

/-- `recordPPM` from `src/lib/prediction-engine.ts`. -/
def recordPPM (record : Option TacticsRecord) : ℚ :=
  match record with
  | none => 1/2
  | some r => if r.played = 0 then 1/2 else (r.wins * 3 + r.draws) / (r.played * 3)

/-- `eloToScore` from `src/lib/prediction-engine.ts`. -/
def eloToScore (elo : ℚ) : ℚ :=
  max 0 (min 1 ((elo - 1350) / 750))

/-- `oddsToProb` from `src/lib/prediction-engine.ts`. -/
def oddsToProb (odds : ℚ) : ℚ :=
  if 0 < odds then 1 / odds else 0

/-- Factor 1: the ELO score of one side (`0.5` when the rating is
absent). -/
def eloScoreOf (teamElo : Option TeamElo) : ℚ :=
  match teamElo with
  | none => 1/2
  | some e => eloToScore (safeNum (some e.elo) 1650)

/-- Factor 2: the xG performance score of one side (40% attack, 60%
defense over the recent five matches; `0.5` when absent). -/
def xgSideScore (xg : Option TeamXG) : ℚ :=
  match xg with
  | none => 1/2
  | some x =>
    let xgpm := safeNum x.recentXGPerMatch (safeNum (some x.xGPerMatch) (12/10))
    let xgapm := safeNum x.recentXGAPerMatch (safeNum (some x.xGAPerMatch) (12/10))
    let attackScore := min (xgpm / (25/10)) 1
    let defenseScore := max 0 (1 - xgapm / (25/10))
    attackScore * (4/10) + defenseScore * (6/10)

/-- Factor 4 (home side): points-per-match at home when available,
otherwise the calibrated home-advantage fallback `0.55`. -/
def homeVenueScore (homeTactics : Option TacticalProfile) : ℚ :=
  match homeTactics with
  | none => 11/20
  | some t =>
    if 0 < t.homeRecord.played then recordPPM (some t.homeRecord) else 11/20

/-- Factor 4 (away side): points-per-match away when available, otherwise
the fallback `0.45`. -/
def awayVenueScore (awayTactics : Option TacticalProfile) : ℚ :=
  match awayTactics with
  | none => 9/20
  | some t =>
    if 0 < t.awayRecord.played then recordPPM (some t.awayRecord) else 9/20

/-- Factor 5: the xG-trend score of one side. -/
def xgTrendScore (xg : Option TeamXG) : ℚ :=
  match xg with
  | none => 1/2
  | some x =>
    match x.xGTrend with
    | none => 1/2
    | some t => (safeNum (some t) 0 + 1) / 2

/-- `nfdLower` from `computeInjuryPenalty`: NFD-decompose, strip
diacritics, lowercase. -/
def nfdLower (s : String) : String :=
  String.mk ((s.toList.map nfdStrip).map jsToLower)

/-- `isCriticalPlayer` from `computeInjuryPenalty`: an injury-list name
refers to one of the critical players when one normalized name contains
the other, or when last names match exactly and first initials agree. -/
def isCriticalPlayer (criticalPlayerNames : List String) (injName : String) : Bool :=
  let injNorm := nfdLower injName
  criticalPlayerNames.any fun critNorm =>
    if containsSub critNorm.toList injNorm.toList || containsSub injNorm.toList critNorm.toList then true
    else
      let injParts := splitChar ' ' injNorm.toList
      let critParts := splitChar ' ' critNorm.toList
      if 2 ≤ injParts.length && 2 ≤ critParts.length then
        let lastMatch := injParts.getLastD [] == critParts.getLastD []
        let firstInitial := (injParts.headD []).head? == (critParts.headD []).head?
        lastMatch && firstInitial
      else false

/-- `computeInjuryPenalty` from `src/lib/prediction-engine.ts`:
role-weighted penalties for critical absences plus `0.03` per remaining
(non-critical) injury, capped at `0.8`. -/
def computeInjuryPenalty (injuries : Option (List Injury))
    (criticals : Option (List CriticalAbsence)) : ℚ :=
  let criticalPlayerNames := (criticals.getD []).map fun c => nfdLower c.player.name
  let penalty := (criticals.getD []).foldl
    (fun (acc : ℚ) ca =>
      let contributions := ca.player.goals + ca.player.assists
      let productivityFactor := min (contributions / 15) 1
      let rolePenalty : ℚ :=
        if ca.player.role = "both" then 20/100
        else if ca.player.role = "scorer" then 15/100
        else 10/100
      acc + rolePenalty * productivityFactor)
    0
  let nonCriticalCount :=
    ((injuries.getD []).filter fun inj => !(isCriticalPlayer criticalPlayerNames inj.player)).length
  min (penalty + (nonCriticalCount : ℚ) * (3/100)) (8/10)

/-- Factor 6: the injury score of one side (`1 -` penalty). -/
def injuryScore (injuries : Option (List Injury))
    (criticals : Option (List CriticalAbsence)) : ℚ :=
  1 - computeInjuryPenalty injuries criticals

/-- Factor 8: `fatigueScoreFn` from `src/lib/prediction-engine.ts`. -/
def fatigueScoreFn (t : TeamFatigue) : ℚ :=
  let restScore : ℚ :=
    match t.daysSinceLastMatch with
    | none => 1/2
    | some d => if d ≤ 1 then 2/10 else if d = 2 then 4/10 else if d ≤ 4 then 6/10 else 8/10
  let loadScore := max 0 (1 - safeNum (some t.matchesLast30Days) 4 / 12)
  restScore * (6/10) + loadScore * (4/10)

/-- Factor 8 for one side of the optional fatigue record. -/
def fatigueScore (fatigue : Option ScheduleFatigue) (side : Bool) : ℚ :=
  match fatigue with
  | none => 1/2
  | some f => fatigueScoreFn (if side then f.home else f.away)

/-- Factor 9 (home side): head-to-head points-per-match score. -/
def homeH2HScore (headToHead : Option HeadToHeadRecord) : ℚ :=
  match headToHead with
  | none => 1/2
  | some h =>
    let total := h.team1Wins + h.draws + h.team2Wins
    if 0 < total then (h.team1Wins * 3 + h.draws) / (total * 3) else 1/2

/-- Factor 9 (away side). -/
def awayH2HScore (headToHead : Option HeadToHeadRecord) : ℚ :=
  match headToHead with
  | none => 1/2
  | some h =>
    let total := h.team1Wins + h.draws + h.team2Wins
    if 0 < total then (h.team2Wins * 3 + h.draws) / (total * 3) else 1/2

/-- Digit list to natural number, for the `parseFloat` model. -/
def digitsToNat (l : List Char) : ℕ :=
  l.foldl (fun acc c => acc * 10 + (c.toNat - '0'.toNat)) 0

/-- Model of JavaScript `parseFloat` restricted to plain decimal
literals (optional sign, digits, optional fractional part), which is the
only shape the data layer produces; `none` models `NaN`. -/
def parseFloatJS (s : String) : Option ℚ :=
  let l := s.toList.dropWhile isWs
  let signed : ℚ × List Char :=
    match l with
    | '-' :: t => (-1, t)
    | '+' :: t => (1, t)
    | _ => (1, l)
  let intDigits := signed.2.takeWhile Char.isDigit
  let rest := signed.2.dropWhile Char.isDigit
  let fracDigits : List Char :=
    match rest with
    | '.' :: t => t.takeWhile Char.isDigit
    | _ => []
  if intDigits.isEmpty && fracDigits.isEmpty then none
  else some (signed.1 * ((digitsToNat intDigits : ℚ) +
    (digitsToNat fracDigits : ℚ) / (10 ^ fracDigits.length)))

/-- Factor 10 (home side): defensive solidity from clean-sheet rate and
parsed goals-against average. -/
def homeDefScore (homeTactics : Option TacticalProfile) : ℚ :=
  match homeTactics with
  | none => 1/2
  | some t =>
    let csRate := if 0 < t.homeRecord.played then t.cleanSheets.home / t.homeRecord.played else 0
    let gaAvg :=
      match parseFloatJS t.goalsAgainstAvg.home with
      | none => 15/10
      | some v => v
    csRate * (1/2) + max 0 (1 - gaAvg / 3) * (1/2)

/-- Factor 10 (away side). -/
def awayDefScore (awayTactics : Option TacticalProfile) : ℚ :=
  match awayTactics with
  | none => 1/2
  | some t =>
    let csRate := if 0 < t.awayRecord.played then t.cleanSheets.away / t.awayRecord.played else 0
    let gaAvg :=
      match parseFloatJS t.goalsAgainstAvg.away with
      | none => 15/10
      | some v => v
    csRate * (1/2) + max 0 (1 - gaAvg / 3) * (1/2)

/-- Factor 11: strength-of-schedule score of one side. -/
def sosScoreOf (sos : Option StrengthOfSchedule) : ℚ :=
  match sos with
  | none => 1/2
  | some s => safeNum (some s.sosScore) (1/2)

/-- The `stakesValue` table of factor 12. -/
def stakesValue : Stakes → ℚ
  | .title => 65/100
  | .europe => 58/100
  | .midtable => 1/2
  | .relegation => 55/100

/-- The `stakeLabels` table of factor 12. -/
def stakeLabels : Stakes → String
  | .title => "Titre"
  | .europe => "Europe"
  | .midtable => "Mi-tableau"
  | .relegation => "Maintien"

/-- Factor 12 (home side): stakes score, pulled 15% toward neutral for a
derby. -/
def homeContextScore (matchContext : Option MatchContext) : ℚ :=
  match matchContext with
  | none => 1/2
  | some mc =>
    let s := stakesValue mc.homeStakes
    if mc.isDerby then s * (85/100) + (1/2) * (15/100) else s

/-- Factor 12 (away side). -/
def awayContextScore (matchContext : Option MatchContext) : ℚ :=
  match matchContext with
  | none => 1/2
  | some mc =>
    let s := stakesValue mc.awayStakes
    if mc.isDerby then s * (85/100) + (1/2) * (15/100) else s

/-- The `baseRefScore` computation of factor 13. -/
def baseRefScore (r : RefereeProfile) : ℚ :=
  let severityScore := min 1 ((safeNum (some r.avgYellowsPerMatch) (35/10) - 2) / 4)
  let penaltyRate := safeNum (some r.penaltiesAwarded) 0 / max 1 (safeNum (some r.matchesOfficiated) 1)
  let penaltyFactor := min 1 (penaltyRate / (4/10))
  max (2/10) (min (8/10) (1/2 - severityScore * (5/100) + penaltyFactor * (3/100)))

/-- Factor 13: the referee score (applied to both sides; neutral unless
the referee officiated at least three matches). -/
def refScore (referee : Option RefereeProfile) : ℚ :=
  match referee with
  | none => 1/2
  | some r => if 3 ≤ r.matchesOfficiated then baseRefScore r else 1/2

/-- Factor 14 (home side): de-margined implied probability from the
market odds.  Over `ℚ` a zero `totalProb` yields 0 (in the source it
yields `NaN`, caught by the final fallback). -/
def homeOddsScore (odds : Option MatchOdds) : ℚ :=
  match odds with
  | none => 1/2
  | some o =>
    let totalProb := oddsToProb o.homeWin + oddsToProb o.draw + oddsToProb o.awayWin
    oddsToProb o.homeWin / totalProb

/-- Factor 14 (away side). -/
def awayOddsScore (odds : Option MatchOdds) : ℚ :=
  match odds with
  | none => 1/2
  | some o =>
    let totalProb := oddsToProb o.homeWin + oddsToProb o.draw + oddsToProb o.awayWin
    oddsToProb o.awayWin / totalProb

-- ===== Weights and composite =====

/-- The fourteen factor weights; the field `defFactor` embeds the source
key `def` (a reserved word in Lean). -/
structure FactorWeights where
  odds : ℚ
  xG : ℚ
  venue : ℚ
  form : ℚ
  elo : ℚ
  injuries : ℚ
  xGTrend : ℚ
  sos : ℚ
  fatigue : ℚ
  squad : ℚ
  h2h : ℚ
  defFactor : ℚ
  context : ℚ
  referee : ℚ

/-- `baseWeights` from `src/lib/prediction-engine.ts`. -/
def baseWeights : FactorWeights where
  odds := 25/100
  xG := 12/100
  venue := 10/100
  form := 8/100
  elo := 7/100
  injuries := 8/100
  xGTrend := 5/100
  sos := 5/100
  fatigue := 6/100
  squad := 4/100
  h2h := 2/100
  defFactor := 2/100
  context := 4/100
  referee := 2/100

/-- `nonOddsSum` from `src/lib/prediction-engine.ts` (`0.75`). -/
def nonOddsSum : ℚ := 1 - baseWeights.odds

/-- The weights actually multiplied into the composite sums: the
baseline when odds are available, otherwise the odds weight is dropped
and every remaining factor's weight is divided by `nonOddsSum`
(proportional redistribution). -/
def appliedWeights (oddsAvailable : Bool) : FactorWeights :=
  if oddsAvailable then baseWeights
  else
    { odds := 0
      xG := baseWeights.xG / nonOddsSum
      venue := baseWeights.venue / nonOddsSum
      form := baseWeights.form / nonOddsSum
      elo := baseWeights.elo / nonOddsSum
      injuries := baseWeights.injuries / nonOddsSum
      xGTrend := baseWeights.xGTrend / nonOddsSum
      sos := baseWeights.sos / nonOddsSum
      fatigue := baseWeights.fatigue / nonOddsSum
      squad := baseWeights.squad / nonOddsSum
      h2h := baseWeights.h2h / nonOddsSum
      defFactor := baseWeights.defFactor / nonOddsSum
      context := baseWeights.context / nonOddsSum
      referee := baseWeights.referee / nonOddsSum }

/-- The sum of all fourteen fields of a weight record. -/
def weightsTotal (w : FactorWeights) : ℚ :=
  w.odds + w.xG + w.venue + w.form + w.elo + w.injuries + w.xGTrend +
    w.sos + w.fatigue + w.squad + w.h2h + w.defFactor + w.context + w.referee

/-- `homeTotal` from `src/lib/prediction-engine.ts`: the weighted home
composite. -/
def homeTotalOf (input : CalculateStatsInput) : ℚ :=
  let w := appliedWeights input.odds.isSome
  homeOddsScore input.odds * w.odds +
    xgSideScore input.homeXG * w.xG +
    homeVenueScore input.homeTactics * w.venue +
    formScore input.homeStanding.form * w.form +
    eloScoreOf input.homeElo * w.elo +
    injuryScore input.homeInjuries input.homeCriticalAbsences * w.injuries +
    xgTrendScore input.homeXG * w.xGTrend +
    sosScoreOf input.homeSOS * w.sos +
    fatigueScore input.fatigue true * w.fatigue +
    safeNum input.homeSquadQuality (1/2) * w.squad +
    homeH2HScore input.headToHead * w.h2h +
    homeDefScore input.homeTactics * w.defFactor +
    homeContextScore input.matchContext * w.context +
    refScore input.referee * w.referee

/-- `awayTotal` from `src/lib/prediction-engine.ts`. -/
def awayTotalOf (input : CalculateStatsInput) : ℚ :=
  let w := appliedWeights input.odds.isSome
  awayOddsScore input.odds * w.odds +
    xgSideScore input.awayXG * w.xG +
    awayVenueScore input.awayTactics * w.venue +
    formScore input.awayStanding.form * w.form +
    eloScoreOf input.awayElo * w.elo +
    injuryScore input.awayInjuries input.awayCriticalAbsences * w.injuries +
    xgTrendScore input.awayXG * w.xGTrend +
    sosScoreOf input.awaySOS * w.sos +
    fatigueScore input.fatigue false * w.fatigue +
    safeNum input.awaySquadQuality (1/2) * w.squad +
    awayH2HScore input.headToHead * w.h2h +
    awayDefScore input.awayTactics * w.defFactor +
    awayContextScore input.matchContext * w.context +
    refScore input.referee * w.referee

/-- `diff` from `src/lib/prediction-engine.ts`. -/
def diffOf (input : CalculateStatsInput) : ℚ :=
  homeTotalOf input - awayTotalOf input

/-- The draw-probability pipeline: Gaussian bell in `diff` (via the
`expQ` parameter modelling `Math.exp`), market or league-prior blend,
context boosts, strict-referee micro-boost. -/
def drawScoreOf (input : CalculateStatsInput) (expQ : ℚ → ℚ) : ℚ :=
  let diff := diffOf input
  let g := max (5/100) ((38/100) * expQ (-10 * diff * diff))
  let afterBlend :=
    match input.odds with
    | some o =>
      let drawProb := oddsToProb o.draw
      let totalProb := oddsToProb o.homeWin + drawProb + oddsToProb o.awayWin
      let drawImplied := drawProb / totalProb
      g * (4/10) + drawImplied * (6/10)
    | none => g * (8/10) + (26/100) * (2/10)
  let afterContext :=
    match input.matchContext with
    | none => afterBlend
    | some mc =>
      let d1 :=
        if mc.homeStakes = .relegation ∧ mc.awayStakes = .relegation then afterBlend + 5/100
        else if mc.homeStakes = .title ∧ mc.awayStakes = .title then afterBlend + 2/100
        else afterBlend
      if mc.isDerby then d1 + 3/100 else d1
  match input.referee with
  | none => afterContext
  | some r =>
    if 3 ≤ r.matchesOfficiated then
      let severityScore := min 1 ((safeNum (some r.avgYellowsPerMatch) (35/10) - 2) / 4)
      if 6/10 < severityScore then afterContext + 1/100 else afterContext
    else afterContext

/-- The pre-clamp probability triple `(home, draw, away)`: the remaining
mass after the draw splits between home and away via the `tanhQ`
parameter modelling `Math.tanh`. -/
def rawTriple (input : CalculateStatsInput) (expQ tanhQ : ℚ → ℚ) : ℚ × ℚ × ℚ :=
  let drawScore := drawScoreOf input expQ
  let remaining := 1 - drawScore
  let favorBias := tanhQ (diffOf input * (34/10))
  (remaining * (1/2 + favorBias * (44/100)), drawScore,
    remaining * (1/2 - favorBias * (44/100)))

/-- `maxClamp` from `src/lib/prediction-engine.ts`: `0.85` with odds,
`0.80` without. -/
def maxClamp (oddsAvailable : Bool) : ℚ :=
  if oddsAvailable then 85/100 else 80/100

/-- The safety clamp: home and away into `[0.03, maxClamp]`, draw into
`[0.05, 0.55]`. -/
def clampTriple (oddsAvailable : Bool) (t : ℚ × ℚ × ℚ) : ℚ × ℚ × ℚ :=
  (max (3/100) (min (maxClamp oddsAvailable) t.1),
    max (5/100) (min (55/100) t.2.1),
    max (3/100) (min (maxClamp oddsAvailable) t.2.2))

/-- The renormalization step: divide each clamped value by their sum. -/
def renormTriple (t : ℚ × ℚ × ℚ) : ℚ × ℚ × ℚ :=
  let sum := t.1 + t.2.1 + t.2.2
  (t.1 / sum, t.2.1 / sum, t.2.2 / sum)

/-- The distribution loop of the largest-remainder method: hand out one
percent per key (in sorted-remainder order) until the deficit is gone. -/
def applyDeficit : List String → ℤ → ℤ × ℤ × ℤ → ℤ × ℤ × ℤ
  | [], _, t => t
  | k :: ks, deficit, (h, d, a) =>
    if deficit ≤ 0 then (h, d, a)
    else applyDeficit ks (deficit - 1)
      (if k = "h" then (h + 1, d, a) else if k = "d" then (h, d + 1, a) else (h, d, a + 1))

/-- The largest-remainder rounding of `src/lib/prediction-engine.ts`:
floor each percentage, then hand the missing percent(s) to the largest
fractional remainders (ties broken stably, as the source's stable sort
does). -/
def largestRemainder (t : ℚ × ℚ × ℚ) : ℤ × ℤ × ℤ :=
  let rawH := t.1 * 100
  let rawD := t.2.1 * 100
  let rawA := t.2.2 * 100
  let rH := ⌊rawH⌋
  let rD := ⌊rawD⌋
  let rA := ⌊rawA⌋
  let deficit := 100 - (rH + rD + rA)
  let remainders : List (String × ℚ) :=
    [("h", rawH - rH), ("d", rawD - rD), ("a", rawA - rA)]
  let sorted := jsSortBy (fun a b => decide (b.2 ≤ a.2)) remainders
  applyDeficit (sorted.map Prod.fst) deficit (rH, rD, rA)

/-- The xG display label of one side. -/
def xgSideLabel (xg : Option TeamXG) : String :=
  match xg with
  | none => "N/A"
  | some x =>
    let xgpm := safeNum x.recentXGPerMatch (safeNum (some x.xGPerMatch) (12/10))
    let xgapm := safeNum x.recentXGAPerMatch (safeNum (some x.xGAPerMatch) (12/10))
    toFixed2 xgpm ++ " xG, " ++ toFixed2 xgapm ++ " xGA (5m)"

/-- `fmtTrend` from `src/lib/prediction-engine.ts`. -/
def fmtTrend (t : Option ℚ) : String :=
  match t with
  | none => "N/A"
  | some t =>
    let arrow := if 5/100 < t then "↑" else if t < -(5/100) then "↓" else "→"
    arrow ++ " " ++ (if 0 < t then "+" else "") ++ toFixed2 t

/-- The venue display label of the home side. -/
def homeVenueLabel (homeTactics : Option TacticalProfile) : String :=
  match homeTactics with
  | none => "Domicile"
  | some t =>
    if 0 < t.homeRecord.played then
      ratDisplay t.homeRecord.wins ++ "V " ++ ratDisplay t.homeRecord.draws ++ "N " ++
        ratDisplay t.homeRecord.losses ++ "D (dom)"
    else "Domicile"

/-- The venue display label of the away side. -/
def awayVenueLabel (awayTactics : Option TacticalProfile) : String :=
  match awayTactics with
  | none => "Extérieur"
  | some t =>
    if 0 < t.awayRecord.played then
      ratDisplay t.awayRecord.wins ++ "V " ++ ratDisplay t.awayRecord.draws ++ "N " ++
        ratDisplay t.awayRecord.losses ++ "D (ext)"
    else "Extérieur"

/-- The injuries display label of one side. -/
def injuriesLabel (injuries : Option (List Injury))
    (criticals : Option (List CriticalAbsence)) : String :=
  let injCount := (injuries.getD []).length
  let critCount := (criticals.getD []).length
  if 0 < critCount then
    toString injCount ++ " (" ++ toString critCount ++ " clés)"
  else
    toString injCount ++ " absent" ++ (if injCount ≠ 1 then "s" else "")

/-- The fatigue display label of one team. -/
def fatigueLabelFn (t : TeamFatigue) : String :=
  let parts : List String :=
    (match t.daysSinceLastMatch with
      | none => []
      | some d => [toString d ++ "j repos"]) ++
    [ratDisplay t.matchesLast30Days ++ "m/30j"]
  String.intercalate ", " parts

/-- The fatigue display label of one side of the optional record. -/
def fatigueLabel (fatigue : Option ScheduleFatigue) (side : Bool) : String :=
  match fatigue with
  | none => "N/A"
  | some f => fatigueLabelFn (if side then f.home else f.away)

/-- The head-to-head display label of the home side. -/
def homeH2HLabel (headToHead : Option HeadToHeadRecord) : String :=
  match headToHead with
  | none => "N/A"
  | some h =>
    if 0 < h.team1Wins + h.draws + h.team2Wins then
      ratDisplay h.team1Wins ++ "V " ++ ratDisplay h.draws ++ "N " ++
        ratDisplay h.team2Wins ++ "D"
    else "N/A"

/-- The head-to-head display label of the away side. -/
def awayH2HLabel (headToHead : Option HeadToHeadRecord) : String :=
  match headToHead with
  | none => "N/A"
  | some h =>
    if 0 < h.team1Wins + h.draws + h.team2Wins then
      ratDisplay h.team2Wins ++ "V " ++ ratDisplay h.draws ++ "N " ++
        ratDisplay h.team1Wins ++ "D"
    else "N/A"

/-- The defensive-solidity display label of the home side. -/
def homeDefLabel (homeTactics : Option TacticalProfile) : String :=
  match homeTactics with
  | none => "N/A"
  | some t => ratDisplay t.cleanSheets.home ++ " CS, " ++ t.goalsAgainstAvg.home ++ " enc/m"

/-- The defensive-solidity display label of the away side. -/
def awayDefLabel (awayTactics : Option TacticalProfile) : String :=
  match awayTactics with
  | none => "N/A"
  | some t => ratDisplay t.cleanSheets.away ++ " CS, " ++ t.goalsAgainstAvg.away ++ " enc/m"

/-- The strength-of-schedule display label of one side. -/
def sosLabel (sos : Option StrengthOfSchedule) : String :=
  match sos with
  | none => "N/A"
  | some s =>
    "Top " ++ toString (jsRound ((1 - s.sosScore) * 100)) ++ "% (avg pos " ++
      ratDisplay s.recentOpponentsAvgPosition ++ ")"

/-- The stakes display label of one side. -/
def contextLabel (matchContext : Option MatchContext) (side : Bool) : String :=
  match matchContext with
  | none => "N/A"
  | some mc =>
    stakeLabels (if side then mc.homeStakes else mc.awayStakes) ++
      (if mc.isDerby then " (Derby)" else "")

/-- The referee display label (shared by both sides). -/
def refereeLabel (referee : Option RefereeProfile) : String :=
  match referee with
  | none => "N/A"
  | some r =>
    if 3 ≤ r.matchesOfficiated then
      r.name ++ " (" ++ ratDisplay r.avgYellowsPerMatch ++ " j/m)"
    else "N/A"

/-- The odds display label of the home side. -/
def homeOddsLabel (odds : Option MatchOdds) : String :=
  match odds with
  | none => "N/A"
  | some o =>
    ratDisplay o.homeWin ++ " (" ++ toString (jsRound (homeOddsScore (some o) * 100)) ++ "%)"

/-- The odds display label of the away side. -/
def awayOddsLabel (odds : Option MatchOdds) : String :=
  match odds with
  | none => "N/A"
  | some o =>
    ratDisplay o.awayWin ++ " (" ++ toString (jsRound (awayOddsScore (some o) * 100)) ++ "%)"

/-- The fourteen factor entries pushed by `calculateStats`, in source
order, with their fixed labels and baseline weights. -/
def factorsList (input : CalculateStatsInput) : List Factor :=
  [ { label := "Rating ELO"
      homeValue := match input.homeElo with | none => "N/A" | some e => toString (jsRound e.elo)
      awayValue := match input.awayElo with | none => "N/A" | some e => toString (jsRound e.elo)
      weight := 7/100 }
  , { label := "xG récent (5 matchs)"
      homeValue := xgSideLabel input.homeXG
      awayValue := xgSideLabel input.awayXG
      weight := 12/100 }
  , { label := "Forme récente (5 matchs)"
      homeValue := input.homeStanding.form.getD "N/A"
      awayValue := input.awayStanding.form.getD "N/A"
      weight := 8/100 }
  , { label := "Bilan dom/ext"
      homeValue := homeVenueLabel input.homeTactics
      awayValue := awayVenueLabel input.awayTactics
      weight := 10/100 }
  , { label := "Tendance xG"
      homeValue := fmtTrend (input.homeXG.bind TeamXG.xGTrend)
      awayValue := fmtTrend (input.awayXG.bind TeamXG.xGTrend)
      weight := 5/100 }
  , { label := "Joueurs absents"
      homeValue := injuriesLabel input.homeInjuries input.homeCriticalAbsences
      awayValue := injuriesLabel input.awayInjuries input.awayCriticalAbsences
      weight := 8/100 }
  , { label := "Qualité effectif"
      homeValue := toString (jsRound (safeNum input.homeSquadQuality (1/2) * 100)) ++ "%"
      awayValue := toString (jsRound (safeNum input.awaySquadQuality (1/2) * 100)) ++ "%"
      weight := 4/100 }
  , { label := "Fatigue calendrier"
      homeValue := fatigueLabel input.fatigue true
      awayValue := fatigueLabel input.fatigue false
      weight := 6/100 }
  , { label := "Confrontations directes"
      homeValue := homeH2HLabel input.headToHead
      awayValue := awayH2HLabel input.headToHead
      weight := 2/100 }
  , { label := "Solidité défensive"
      homeValue := homeDefLabel input.homeTactics
      awayValue := awayDefLabel input.awayTactics
      weight := 2/100 }
  , { label := "Difficulté calendrier"
      homeValue := sosLabel input.homeSOS
      awayValue := sosLabel input.awaySOS
      weight := 5/100 }
  , { label := "Enjeux du match"
      homeValue := contextLabel input.matchContext true
      awayValue := contextLabel input.matchContext false
      weight := 4/100 }
  , { label := "Profil arbitre"
      homeValue := refereeLabel input.referee
      awayValue := refereeLabel input.referee
      weight := 2/100 }
  , { label := "Cotes du marché"
      homeValue := homeOddsLabel input.odds
      awayValue := awayOddsLabel input.odds
      weight := 25/100 } ]

/-- `calculateStats` from `src/lib/prediction-engine.ts`: factor scores,
proportional weight redistribution, draw pipeline, tanh split, clamp,
renormalize, largest-remainder rounding.  `expQ`/`tanhQ` model
`Math.exp`/`Math.tanh` (see the file header); the source's final
`Number.isNaN` neutral fallback cannot trigger over `ℚ` and is omitted
here. -/
def calculateStats (input : CalculateStatsInput) (expQ tanhQ : ℚ → ℚ) : StatsScore :=
  let t := largestRemainder (renormTriple
    (clampTriple input.odds.isSome (rawTriple input expQ tanhQ)))
  { homeScore := t.1
    drawScore := t.2.1
    awayScore := t.2.2
    factors := factorsList input }

-- ===== Entity resolution =====

/-- `normalizeTeamName` from `src/lib/injuries-api.ts`: lowercase, keep
only `[a-z0-9]`. -/
def normalizeTeamName (name : String) : String :=
  String.mk ((name.toList.map jsToLower).filter isAsciiAlnum)

/-- `normalizeTeamName` from `src/lib/normalize.ts` (the NFD variant):
decompose, strip diacritics, lowercase, keep only `[a-z0-9]`. -/
def normalizeTeamNameNFD (name : String) : String :=
  String.mk (((name.toList.map nfdStrip).map jsToLower).filter isAsciiAlnum)

/-- Character-level model of JavaScript `toLowerCase` on a string. -/
def jsLowerStr (s : String) : String :=
  String.mk (s.toList.map jsToLower)

/-- Split a character list at whitespace runs, dropping empty pieces:
the effect of `split(/\s+/)` up to boundary empties, which every caller
filters away by a minimum-length check. -/
def splitWsAux : List Char → List Char → List (List Char)
  | [], cur => if cur.isEmpty then [] else [cur.reverse]
  | c :: t, cur =>
    if isWs c then
      if cur.isEmpty then splitWsAux t [] else cur.reverse :: splitWsAux t []
    else splitWsAux t (c :: cur)

/-- See `splitWsAux`. -/
def splitWs (l : List Char) : List (List Char) := splitWsAux l []

/-- `NOISE_WORDS` from `src/lib/match-context-api.ts`. -/
def NOISE_WORDS : List String :=
  ["fc", "rc", "sc", "ac", "cf", "de", "du", "le", "la", "les", "of", "the", "club",
    "racing", "sporting", "olympique", "stade", "association", "aj", "as", "og", "ogc",
    "us", "sco", "osc"]

/-- `GENERIC_TEAM_WORDS` from `src/lib/match-context-api.ts`. -/
def GENERIC_TEAM_WORDS : List String :=
  ["united", "city", "real", "athletic", "atletico", "inter", "milan"]

/-- `getSignificantWords` from `src/lib/match-context-api.ts`. -/
def getSignificantWords (name : String) : List String :=
  let cleaned := (name.toList.map jsToLower).filter fun c => isAsciiAlnum c || isWs c
  ((splitWs cleaned).map String.mk).filter fun w =>
    2 ≤ w.length && !(NOISE_WORDS.contains w)

/-- `teamsMatch` from `src/lib/match-context-api.ts`.  The coverage test
`shorter.length / longer.length > 0.5` is expressed integrally as
`longer.length < 2 * shorter.length`, which is equivalent over the
natural lengths. -/
def teamsMatch (nameA nameB : String) : Bool :=
  let normA := normalizeTeamName nameA
  let normB := normalizeTeamName nameB
  let shorter := if normA.length ≤ normB.length then normA else normB
  let longer := if normB.length < normA.length then normA else normB
  if 3 ≤ shorter.length && containsSub shorter.toList longer.toList &&
      longer.length < 2 * shorter.length then true
  else
    let wordsA := getSignificantWords nameA
    let wordsB := getSignificantWords nameB
    wordsA.any fun wa =>
      4 ≤ wa.length && !(GENERIC_TEAM_WORDS.contains wa) && wordsB.any fun wb => wa == wb

/-- The `ALIASES` table of `findTeamElo` (football-data names to ClubElo
names). -/
def ELO_ALIASES : List (String × String) :=
  [ ("wolverhampton wanderers", "wolves")
  , ("wolverhampton", "wolves")
  , ("tottenham hotspur", "tottenham")
  , ("west ham united", "west ham")
  , ("newcastle united", "newcastle")
  , ("nottingham forest", "nott\x27m forest")
  , ("manchester united", "man united")
  , ("manchester city", "man city")
  , ("paris saint-germain", "paris sg")
  , ("atletico madrid", "atletico")
  , ("atletico de madrid", "atletico")
  , ("real sociedad", "real sociedad")
  , ("rcd espanyol", "espanyol")
  , ("borussia dortmund", "dortmund")
  , ("bayer leverkusen", "leverkusen")
  , ("rb leipzig", "leipzig")
  , ("bayern munich", "bayern")
  , ("bayern münchen", "bayern")
  , ("fc bayern münchen", "bayern")
  , ("as roma", "roma")
  , ("ac milan", "milan")
  , ("inter milan", "inter")
  , ("ssc napoli", "napoli")
  , ("olympique marseille", "marseille")
  , ("olympique lyonnais", "lyon")
  , ("olympique de marseille", "marseille")
  , ("as monaco", "monaco")
  , ("rc strasbourg alsace", "strasbourg")
  , ("fc barcelona", "barcelona")
  , ("sporting cp", "sporting")
  , ("sl benfica", "benfica")
  , ("fc porto", "porto") ]

/-- `findTeamElo` from the ELO adapter (`src/unnamed/part_004`): direct
lowercase match, then alias table, then partial match by containment or
by significant words. -/
def findTeamElo (allElo : List TeamElo) (teamName : String) : Option TeamElo :=
  let normalized := jsLowerStr teamName
  match allElo.find? fun e => jsLowerStr e.team == normalized with
  | some direct => some direct
  | none =>
    let aliasHit :=
      match (ELO_ALIASES.find? fun p => p.1 == normalized).map Prod.snd with
      | none => none
      | some aliasName => allElo.find? fun (e : TeamElo) => jsLowerStr e.team == aliasName
    match aliasHit with
    | some found => some found
    | none =>
      let words := ((splitWs normalized.toList).map String.mk).filter fun (w : String) =>
        3 < w.length && !(["fc", "sc", "club", "united", "city"].contains w)
      allElo.find? fun entry =>
        let eloLower := jsLowerStr entry.team
        containsSub normalized.toList eloLower.toList ||
          containsSub eloLower.toList normalized.toList ||
          (!words.isEmpty && words.all fun w => containsSub w.toList eloLower.toList)

/-- The `UNDERSTAT_ALIASES` table of `findTeamXG` (lowercased
football-data names to lowercased Understat keys). -/
def UNDERSTAT_ALIASES : List (String × String) :=
  [ ("fc bayern münchen", "bayern munich")
  , ("bayern münchen", "bayern munich")
  , ("bayer 04 leverkusen", "bayer leverkusen")
  , ("rb leipzig", "rasenballsport leipzig")
  , ("1. fc union berlin", "union berlin")
  , ("1. fc köln", "koln")
  , ("1. fc heidenheim 1846", "heidenheim")
  , ("vfb stuttgart", "stuttgart")
  , ("vfl wolfsburg", "wolfsburg")
  , ("vfl bochum 1848", "bochum")
  , ("tsg 1899 hoffenheim", "hoffenheim")
  , ("sv werder bremen", "werder bremen")
  , ("1. fsv mainz 05", "mainz 05")
  , ("borussia mönchengladbach", "borussia m.gladbach")
  , ("paris saint-germain fc", "paris saint germain")
  , ("paris saint-germain", "paris saint germain")
  , ("olympique de marseille", "marseille")
  , ("olympique lyonnais", "lyon")
  , ("rc strasbourg alsace", "strasbourg")
  , ("stade rennais fc 1901", "rennes")
  , ("stade rennais fc", "rennes")
  , ("as monaco fc", "monaco")
  , ("as monaco", "monaco")
  , ("losc lille", "lille")
  , ("montpellier hsc", "montpellier")
  , ("stade brestois 29", "brest")
  , ("as saint-étienne", "saint-etienne")
  , ("angers sco", "angers")
  , ("le havre ac", "le havre")
  , ("club atlético de madrid", "atletico madrid")
  , ("atlético de madrid", "atletico madrid")
  , ("fc barcelona", "barcelona")
  , ("real sociedad de fútbol", "real sociedad")
  , ("rcd espanyol de barcelona", "espanyol")
  , ("real betis balompié", "real betis")
  , ("rc celta de vigo", "celta vigo")
  , ("ca osasuna", "osasuna")
  , ("rcd mallorca", "mallorca")
  , ("ud las palmas", "las palmas")
  , ("deportivo alavés", "alaves")
  , ("ssc napoli", "napoli")
  , ("ac milan", "milan")
  , ("inter milan", "inter")
  , ("fc internazionale milano", "inter")
  , ("as roma", "roma")
  , ("ss lazio", "lazio")
  , ("atalanta bc", "atalanta")
  , ("acf fiorentina", "fiorentina")
  , ("torino fc", "torino")
  , ("bologna fc 1909", "bologna")
  , ("us sassuolo calcio", "sassuolo")
  , ("hellas verona fc", "verona")
  , ("us lecce", "lecce")
  , ("cagliari calcio", "cagliari")
  , ("genoa cfc", "genoa")
  , ("udinese calcio", "udinese")
  , ("empoli fc", "empoli")
  , ("como 1907", "como")
  , ("parma calcio 1913", "parma")
  , ("venezia fc", "venezia")
  , ("wolverhampton wanderers fc", "wolverhampton wanderers")
  , ("nottingham forest fc", "nottingham forest")
  , ("newcastle united fc", "newcastle united")
  , ("manchester united fc", "manchester united")
  , ("manchester city fc", "manchester city")
  , ("tottenham hotspur fc", "tottenham")
  , ("west ham united fc", "west ham united")
  , ("brighton & hove albion fc", "brighton")
  , ("crystal palace fc", "crystal palace")
  , ("leicester city fc", "leicester")
  , ("afc bournemouth", "bournemouth")
  , ("southampton fc", "southampton")
  , ("ipswich town fc", "ipswich") ]

/-- `findTeamXG` from `src/lib/understat-api.ts`: exact key match, alias
match, NFD-normalized match, longest partial containment, then
word-based match.  The xG table (`Record<string, TeamXG>`) is modelled
as its entry list in insertion order. -/
def findTeamXG (allXG : List (String × TeamXG)) (teamName : String) : Option TeamXG :=
  let normalized := normalizeTeamNameNFD teamName
  let lowered := jsLowerStr teamName
  let exact := (allXG.find? fun p => p.1 == lowered).map Prod.snd
  if exact.isSome then exact
  else
    let aliasHit :=
      match (UNDERSTAT_ALIASES.find? fun p => p.1 == lowered).map Prod.snd with
      | none => none
      | some aliasName => (allXG.find? fun (p : String × TeamXG) => p.1 == aliasName).map Prod.snd
    if aliasHit.isSome then aliasHit
    else
      let nfdHit := (allXG.find? fun (p : String × TeamXG) => normalizeTeamNameNFD p.1 == normalized).map Prod.snd
      if nfdHit.isSome then nfdHit
      else
        let best := allXG.foldl
          (fun (acc : Option TeamXG × ℕ) (p : String × TeamXG) =>
            if containsSub lowered.toList p.1.toList || containsSub p.1.toList lowered.toList then
              let matchLen := min p.1.length lowered.length
              if acc.2 < matchLen then (some p.2, matchLen) else acc
            else acc)
          (none, 0)
        if best.1.isSome then best.1
        else
          let words := ((splitWs lowered.toList).map String.mk).filter fun (w : String) => 3 < w.length
          if !words.isEmpty then
            (allXG.find? fun (p : String × TeamXG) => words.all fun w => containsSub w.toList p.1.toList).map Prod.snd
          else none

-- ===== Backtest harness (src/scripts/backtest.ts) =====

/-- `FinishedMatch` from `src/scripts/backtest.ts`, with `homeTeam.id`,
`awayTeam.id` and `score.fullTime` flattened into fields. -/
structure FinishedMatch where
  utcDate : String
  homeTeamId : ℕ
  awayTeamId : ℕ
  scoreHome : Option ℕ
  scoreAway : Option ℕ
deriving DecidableEq

/-- `TeamStats` from `src/scripts/backtest.ts` (per-team accumulator of
`buildStandings`); `results` is the chronological W/D/L list. -/
structure TeamStats where
  team : Team
  played : ℕ
  won : ℕ
  draw : ℕ
  lost : ℕ
  goalsFor : ℕ
  goalsAgainst : ℕ
  points : ℕ
  results : List String
deriving DecidableEq

/-- The `stats` accumulator: a JavaScript `Map` in insertion order. -/
abbrev StatsMap := List (ℕ × TeamStats)

/-- `Map.get`. -/
def mget (k : ℕ) (m : StatsMap) : Option TeamStats :=
  (m.find? fun p => p.1 == k).map Prod.snd

/-- `Map.set`: replace the existing entry in place when the key exists
(keys are unique in a `Map`), append at the end otherwise. -/
def mset (k : ℕ) (v : TeamStats) : StatsMap → StatsMap
  | [] => [(k, v)]
  | (k0, s) :: m => if k0 = k then (k0, v) :: m else (k0, s) :: mset k v m

/-- Mutation of the entry at key `k` through its `Map` reference (no-op
when absent, which `statsStep` rules out by ensuring presence first). -/
def mupd (k : ℕ) (f : TeamStats → TeamStats) (m : StatsMap) : StatsMap :=
  m.map fun p => if p.1 == k then (p.1, f p.2) else p

/-- A zeroed `TeamStats` accumulator for a team. -/
def initStats (team : Team) : TeamStats :=
  { team := team, played := 0, won := 0, draw := 0, lost := 0,
    goalsFor := 0, goalsAgainst := 0, points := 0, results := [] }

/-- The initial accumulator: one zeroed entry per roster team. -/
def initMap (teamMap : List (ℕ × Team)) : StatsMap :=
  teamMap.foldl (fun m p => mset p.1 (initStats p.2) m) []

/-- The placeholder team created for a match participant missing from
the roster. -/
def defaultTeam (tid : ℕ) : Team :=
  { id := tid, name := "Team " ++ toString tid, shortName := "T" ++ toString tid,
    tla := "???", crest := "" }

/-- The ensure-presence step of `buildStandings` for one team id. -/
def ensureEntry (teamMap : List (ℕ × Team)) (tid : ℕ) (m : StatsMap) : StatsMap :=
  if (mget tid m).isSome then m
  else mset tid (initStats
    (((teamMap.find? fun p => p.1 == tid).map Prod.snd).getD (defaultTeam tid))) m

/-- One iteration of the match fold of `buildStandings`: skip unplayed
matches, ensure both entries exist, then apply the source's field
mutations in order. -/
def statsStep (teamMap : List (ℕ × Team)) (m : StatsMap) (fm : FinishedMatch) : StatsMap :=
  match fm.scoreHome, fm.scoreAway with
  | some hg, some ag =>
    let homeId := fm.homeTeamId
    let awayId := fm.awayTeamId
    let m1 := ensureEntry teamMap awayId (ensureEntry teamMap homeId m)
    let m2 := mupd awayId (fun s => { s with played := s.played + 1 })
      (mupd homeId (fun s => { s with played := s.played + 1 }) m1)
    let m3 := mupd awayId (fun s => { s with goalsAgainst := s.goalsAgainst + hg })
      (mupd awayId (fun s => { s with goalsFor := s.goalsFor + ag })
        (mupd homeId (fun s => { s with goalsAgainst := s.goalsAgainst + ag })
          (mupd homeId (fun s => { s with goalsFor := s.goalsFor + hg }) m2)))
    if ag < hg then
      mupd awayId (fun s => { s with results := s.results ++ ["L"] })
        (mupd homeId (fun s => { s with results := s.results ++ ["W"] })
          (mupd awayId (fun s => { s with lost := s.lost + 1 })
            (mupd homeId (fun s => { s with points := s.points + 3 })
              (mupd homeId (fun s => { s with won := s.won + 1 }) m3))))
    else if hg < ag then
      mupd awayId (fun s => { s with results := s.results ++ ["W"] })
        (mupd homeId (fun s => { s with results := s.results ++ ["L"] })
          (mupd homeId (fun s => { s with lost := s.lost + 1 })
            (mupd awayId (fun s => { s with points := s.points + 3 })
              (mupd awayId (fun s => { s with won := s.won + 1 }) m3))))
    else
      mupd awayId (fun s => { s with results := s.results ++ ["D"] })
        (mupd homeId (fun s => { s with results := s.results ++ ["D"] })
          (mupd awayId (fun s => { s with points := s.points + 1 })
            (mupd homeId (fun s => { s with points := s.points + 1 })
              (mupd awayId (fun s => { s with draw := s.draw + 1 })
                (mupd homeId (fun s => { s with draw := s.draw + 1 }) m3)))))
  | _, _ => m

/-- The accumulator after folding a match log. -/
def statsAfter (teamMap : List (ℕ × Team)) (log : List FinishedMatch) : StatsMap :=
  log.foldl (statsStep teamMap) (initMap teamMap)

/-- Model of `Array.prototype.join(",")`. -/
def joinComma : List String → String
  | [] => ""
  | [x] => x
  | x :: y :: l => x ++ "," ++ joinComma (y :: l)

/-- The `Standing` row built from one accumulator entry: position is
assigned later; the form string is the last five results, most recent
first, or `null` when empty. -/
def mkStanding (s : TeamStats) : Standing :=
  { position := 0
    team := s.team
    playedGames := s.played
    won := s.won
    draw := s.draw
    lost := s.lost
    points := s.points
    goalsFor := s.goalsFor
    goalsAgainst := s.goalsAgainst
    goalDifference := (s.goalsFor : ℤ) - (s.goalsAgainst : ℤ)
    form :=
      let f := joinComma ((s.results.drop (s.results.length - 5)).reverse)
      if f = "" then none else some f }

/-- The sort comparator of `buildStandings` as a boolean "comes no
later" relation (`cmp(a, b) <= 0`): points descending, then goal
difference, then goals for, then team id ascending. -/
def standingsCmpLe (a b : Standing) : Bool :=
  if a.points ≠ b.points then decide (b.points < a.points)
  else if a.goalDifference ≠ b.goalDifference then decide (b.goalDifference < a.goalDifference)
  else if a.goalsFor ≠ b.goalsFor then decide (b.goalsFor < a.goalsFor)
  else decide (a.team.id ≤ b.team.id)

/-- `buildStandings` from `src/scripts/backtest.ts`. -/
def buildStandings (matchesBefore : List FinishedMatch)
    (teamMap : List (ℕ × Team)) : List Standing :=
  let stats := statsAfter teamMap matchesBefore
  let standings := ((stats.map Prod.snd).filter fun s => s.played ≠ 0).map mkStanding
  let sorted := jsSortBy standingsCmpLe standings
  sorted.enum.map fun p => { p.2 with position := p.1 + 1 }

/-- `computeH2H` from `src/scripts/backtest.ts`. -/
def computeH2H (matchesBefore : List FinishedMatch) (team1Id team2Id : ℕ)
    (teamMap : List (ℕ × Team)) : HeadToHeadRecord :=
  let h2hMatches := matchesBefore.filter fun m =>
    (m.homeTeamId == team1Id || m.awayTeamId == team1Id) &&
      (m.homeTeamId == team2Id || m.awayTeamId == team2Id)
  let filtered := h2hMatches.filter fun m => m.scoreHome.isSome && m.scoreAway.isSome
  let teamNameOf := fun (tid : ℕ) =>
    (((teamMap.find? fun p => p.1 == tid).map Prod.snd).map Team.name).getD
      ("Team " ++ toString tid)
  let acc := filtered.foldl
    (fun (acc : List HeadToHeadMatch × ℚ × ℚ × ℚ) m =>
      let hg := m.scoreHome.getD 0
      let ag := m.scoreAway.getD 0
      let counts : ℚ × ℚ × ℚ :=
        if hg = ag then (acc.2.1, acc.2.2.1 + 1, acc.2.2.2)
        else
          let winnerId := if ag < hg then m.homeTeamId else m.awayTeamId
          if winnerId = team1Id then (acc.2.1 + 1, acc.2.2.1, acc.2.2.2)
          else (acc.2.1, acc.2.2.1, acc.2.2.2 + 1)
      (acc.1 ++ [{ date := m.utcDate
                   homeTeam := teamNameOf m.homeTeamId
                   awayTeam := teamNameOf m.awayTeamId
                   homeGoals := hg
                   awayGoals := ag }], counts))
    ([], 0, 0, 0)
  { «matches» := acc.1, team1Wins := acc.2.1, draws := acc.2.2.1, team2Wins := acc.2.2.2 }

/-- `computeStrengthOfSchedule` from `src/lib/football-api.ts`
(`src/unnamed/part_006`): average rank and points-per-match of the
opponents in the five most recent prior matches of a team. -/
def computeStrengthOfSchedule (teamId : ℕ) (finishedMatches : List FinishedMatch)
    (standings : List Standing) : Option StrengthOfSchedule :=
  let filtered := finishedMatches.filter fun m =>
    m.scoreHome.isSome && (m.homeTeamId == teamId || m.awayTeamId == teamId)
  let teamMatches := filtered.drop (filtered.length - 5)
  if teamMatches.isEmpty then none
  else
    let totalTeams := standings.length
    let acc := teamMatches.foldl
      (fun (acc : ℚ × ℚ × ℕ) m =>
        let oppId := if m.homeTeamId == teamId then m.awayTeamId else m.homeTeamId
        match standings.find? fun s => s.team.id == oppId with
        | none => acc
        | some opp =>
          (acc.1 + opp.position,
            acc.2.1 + (if 0 < opp.playedGames then (opp.points : ℚ) / opp.playedGames else 0),
            acc.2.2 + 1))
      (0, 0, 0)
    if acc.2.2 = 0 then none
    else
      let avgPosition := acc.1 / (acc.2.2 : ℚ)
      let avgPPM := acc.2.1 / (acc.2.2 : ℚ)
      let sosScore := max 0 (min 1 (1 - (avgPosition - 1) / ((totalTeams : ℚ) - 1)))
      some
        { teamId := teamId
          recentOpponentsAvgPosition := (jsRound (avgPosition * 10) : ℚ) / 10
          recentOpponentsAvgPPM := (jsRound (avgPPM * 100) : ℚ) / 100
          sosScore := (jsRound (sosScore * 100) : ℚ) / 100 }

/-- `DERBY_PAIRS` from `src/lib/match-context-api.ts`. -/
def DERBY_PAIRS : List (String × String) :=
  [ ("paris saint-germain", "olympique de marseille")
  , ("olympique lyonnais", "as saint-étienne")
  , ("liverpool", "everton")
  , ("manchester united", "manchester city")
  , ("arsenal", "tottenham")
  , ("chelsea", "tottenham")
  , ("real madrid", "atletico madrid")
  , ("real madrid", "barcelona")
  , ("barcelona", "espanyol")
  , ("inter", "ac milan")
  , ("juventus", "torino")
  , ("roma", "lazio")
  , ("borussia dortmund", "schalke")
  , ("bayern", "borussia dortmund") ]

/-- `getStakes` from `src/lib/match-context-api.ts`. -/
def getStakes (position : ℕ) (totalTeams : ℕ) : Stakes :=
  if position ≤ 2 then .title
  else if (position : ℤ) ≤ min 6 ⌈(totalTeams : ℚ) * (3/10)⌉ then .europe
  else if (totalTeams : ℤ) - 3 < (position : ℤ) then .relegation
  else .midtable

/-- `isDerbyMatch` from `src/lib/match-context-api.ts`. -/
def isDerbyMatch (homeName awayName : String) : Bool :=
  let h := normalizeTeamName homeName
  let a := normalizeTeamName awayName
  DERBY_PAIRS.any fun p =>
    let n1 := normalizeTeamName p.1
    let n2 := normalizeTeamName p.2
    (containsSub n1.toList h.toList && containsSub n2.toList a.toList) ||
      (containsSub n2.toList h.toList && containsSub n1.toList a.toList)

/-- `getMatchContext` from `src/lib/match-context-api.ts`. -/
def getMatchContext (homeStanding awayStanding : Standing) (totalTeams : ℕ) : MatchContext :=
  { homeStakes := getStakes homeStanding.position totalTeams
    awayStakes := getStakes awayStanding.position totalTeams
    isDerby := isDerbyMatch homeStanding.team.name awayStanding.team.name }

/-- `MatchResult` from `src/scripts/backtest.ts`, the `predicted`
object flattened; outcome strings are `"1"`, `"N"`, `"2"`. -/
structure MatchResult where
  homeTeam : String
  awayTeam : String
  predictedHome : ℤ
  predictedDraw : ℤ
  predictedAway : ℤ
  predictedOutcome : String
  actual : String
  correct : Bool
deriving DecidableEq

/-- The immutable inputs of the backtest loop after the data-loading
phase: chronologically sorted finished matches, the roster map, and the
(present-day snapshot) xG and ELO tables. -/
structure BacktestData where
  validMatches : List FinishedMatch
  teamMap : List (ℕ × Team)
  allXG : List (String × TeamXG)
  allElo : List TeamElo

/-- `MIN_MATCHES` from `src/scripts/backtest.ts`. -/
def MIN_MATCHES : ℕ := 5

/-- How many prior matches of the log involve a team. -/
def playedBefore (matchesBefore : List FinishedMatch) (tid : ℕ) : ℕ :=
  (matchesBefore.filter fun m => m.homeTeamId == tid || m.awayTeamId == tid).length

/-- One iteration of the backtest loop of `main` in
`src/scripts/backtest.ts`: skip (returning the accumulator unchanged)
when either side lacks `MIN_MATCHES` prior matches or lacks a standings
row; otherwise reconstruct the point-in-time inputs, run the engine and
append one `MatchResult`. -/
def backtestStep (data : BacktestData) (expQ tanhQ : ℚ → ℚ)
    (results : List MatchResult) (i : ℕ) : List MatchResult :=
  match data.validMatches.get? i with
  | none => results
  | some fm =>
    let matchesBefore := data.validMatches.take i
    let homePlayedBefore := playedBefore matchesBefore fm.homeTeamId
    let awayPlayedBefore := playedBefore matchesBefore fm.awayTeamId
    if homePlayedBefore < MIN_MATCHES || awayPlayedBefore < MIN_MATCHES then results
    else
      let standings := buildStandings matchesBefore data.teamMap
      match standings.find? (fun s => s.team.id == fm.homeTeamId),
          standings.find? (fun s => s.team.id == fm.awayTeamId) with
      | some homeStanding, some awayStanding =>
        let homeTeamName := homeStanding.team.name
        let awayTeamName := awayStanding.team.name
        let headToHead := computeH2H matchesBefore fm.homeTeamId fm.awayTeamId data.teamMap
        let statsScore := calculateStats
          { homeStanding := homeStanding
            awayStanding := awayStanding
            headToHead := if 0 < headToHead.«matches».length then some headToHead else none
            homeXG := findTeamXG data.allXG homeTeamName
            awayXG := findTeamXG data.allXG awayTeamName
            homeElo := findTeamElo data.allElo homeTeamName
            awayElo := findTeamElo data.allElo awayTeamName
            homeSOS := computeStrengthOfSchedule fm.homeTeamId matchesBefore standings
            awaySOS := computeStrengthOfSchedule fm.awayTeamId matchesBefore standings
            matchContext := some (getMatchContext homeStanding awayStanding standings.length) }
          expQ tanhQ
        let hg := fm.scoreHome.getD 0
        let ag := fm.scoreAway.getD 0
        let actual := if ag < hg then "1" else if hg < ag then "2" else "N"
        let predictedOutcome :=
          if statsScore.drawScore ≤ statsScore.homeScore ∧
              statsScore.awayScore ≤ statsScore.homeScore then "1"
          else if statsScore.homeScore ≤ statsScore.awayScore ∧
              statsScore.drawScore ≤ statsScore.awayScore then "2"
          else "N"
        results ++
          [{ homeTeam := homeTeamName
             awayTeam := awayTeamName
             predictedHome := statsScore.homeScore
             predictedDraw := statsScore.drawScore
             predictedAway := statsScore.awayScore
             predictedOutcome := predictedOutcome
             actual := actual
             correct := predictedOutcome == actual }]
      | _, _ => results

/-- The result list after the first `n` iterations of the backtest
loop. -/
def backtestUpTo (data : BacktestData) (expQ tanhQ : ℚ → ℚ) : ℕ → List MatchResult
  | 0 => []
  | n + 1 => backtestStep data expQ tanhQ (backtestUpTo data expQ tanhQ n) n

-- ===== Specification-side definitions =====

/-- The W/D/L entries a single match contributes to a team's
chronological result list (two entries when a team faces itself, matching
the accumulator aliasing of the source). -/
def resultsOfMatchFor (t : ℕ) (m : FinishedMatch) : List String :=
  match m.scoreHome, m.scoreAway with
  | some hg, some ag =>
    (if m.homeTeamId = t then [if ag < hg then "W" else if hg < ag then "L" else "D"] else []) ++
      (if m.awayTeamId = t then [if hg < ag then "W" else if ag < hg then "L" else "D"] else [])
  | _, _ => []

/-- The chronological W/D/L results of a team over a match log, defined
directly (independently of the `buildStandings` accumulator). -/
def resultsOfTeam (t : ℕ) (log : List FinishedMatch) : List String :=
  log.flatMap (resultsOfMatchFor t)

/-- The standings ordering stated by the specification: points
descending, then goal difference descending, then goals scored
descending, then team id ascending. -/
def standingsOrder (a b : Standing) : Prop :=
  b.points < a.points ∨
    (a.points = b.points ∧
      (b.goalDifference < a.goalDifference ∨
        (a.goalDifference = b.goalDifference ∧
          (b.goalsFor < a.goalsFor ∨
            (a.goalsFor = b.goalsFor ∧ a.team.id ≤ b.team.id)))))

instance (a b : Standing) : Decidable (standingsOrder a b) := by
  unfold standingsOrder; infer_instance

/-- The standings row of a team, when present. -/
def rowFor (t : ℕ) (standings : List Standing) : Option Standing :=
  standings.find? fun s => s.team.id == t

/-- Forget the rank of a row (for frame statements that compare rows up
to position). -/
def eraseRank (s : Standing) : Standing := { s with position := 0 }

/-- The well-formedness of a roster map: each entry is keyed by its
team's id (as `main` builds `teamMap` from the standings feed). -/
def RosterWF (tm : List (ℕ × Team)) : Prop :=
  ∀ p ∈ tm, (Prod.snd p).id = p.1

instance (tm : List (ℕ × Team)) : Decidable (RosterWF tm) := by
  unfold RosterWF; infer_instance

/-- The component sum of an integer triple. -/
def sumT (t : ℤ × ℤ × ℤ) : ℤ := t.1 + t.2.1 + t.2.2

/-- The key list of a stats map. -/
def keys (m : StatsMap) : List ℕ := m.map Prod.fst

/-- The entry `statsStep` starts from for an involved team: the existing
entry, or a fresh one for the roster team (or placeholder) of that id. -/
def baseEntry (tm : List (ℕ × Team)) (t : ℕ) (m : StatsMap) : TeamStats :=
  (mget t m).getD
    (initStats (((tm.find? fun p => p.1 == t).map Prod.snd).getD (defaultTeam t)))

/-- The net effect of one match on the home team's accumulator (the
composition of the home-side mutations of `statsStep`). -/
def applyMatchHome (hg ag : ℕ) (s : TeamStats) : TeamStats :=
  if ag < hg then
    { s with
      played := s.played + 1
      goalsFor := s.goalsFor + hg
      goalsAgainst := s.goalsAgainst + ag
      won := s.won + 1
      points := s.points + 3
      results := s.results ++ ["W"] }
  else if hg < ag then
    { s with
      played := s.played + 1
      goalsFor := s.goalsFor + hg
      goalsAgainst := s.goalsAgainst + ag
      lost := s.lost + 1
      results := s.results ++ ["L"] }
  else
    { s with
      played := s.played + 1
      goalsFor := s.goalsFor + hg
      goalsAgainst := s.goalsAgainst + ag
      draw := s.draw + 1
      points := s.points + 1
      results := s.results ++ ["D"] }

/-- The net effect of one match on the away team's accumulator. -/
def applyMatchAway (hg ag : ℕ) (s : TeamStats) : TeamStats :=
  if ag < hg then
    { s with
      played := s.played + 1
      goalsFor := s.goalsFor + ag
      goalsAgainst := s.goalsAgainst + hg
      lost := s.lost + 1
      results := s.results ++ ["L"] }
  else if hg < ag then
    { s with
      played := s.played + 1
      goalsFor := s.goalsFor + ag
      goalsAgainst := s.goalsAgainst + hg
      won := s.won + 1
      points := s.points + 3
      results := s.results ++ ["W"] }
  else
    { s with
      played := s.played + 1
      goalsFor := s.goalsFor + ag
      goalsAgainst := s.goalsAgainst + hg
      draw := s.draw + 1
      points := s.points + 1
      results := s.results ++ ["D"] }

/-- Every entry of a stats map carries the team whose id is the entry's
key. -/
def IdsInv (m : StatsMap) : Prop := ∀ p ∈ m, (Prod.snd p).team.id = p.1

/-- The accumulator agrees with the direct chronological tally of the
processed log: a present entry holds exactly the team's results so far
(with `played` counting them) and an absent team has no results so
far. -/
def ResultsInv (log : List FinishedMatch) (m : StatsMap) : Prop :=
  (∀ k, mget k m = none → resultsOfTeam k log = []) ∧
    ∀ k s, mget k m = some s →
      s.results = resultsOfTeam k log ∧ s.played = s.results.length

-- ===== Concrete fixtures for counterexamples and witnesses =====

/-- A minimal team for concrete evaluations. -/
def mkTeam (i : ℕ) (n : String) : Team :=
  { id := i, name := n, shortName := n, tla := n, crest := "" }

/-- A bare standings row (only mandatory data; no form string). -/
def bareStanding (i : ℕ) (n : String) : Standing :=
  { position := 1, team := mkTeam i n, playedGames := 0, won := 0, draw := 0, lost := 0,
    points := 0, goalsFor := 0, goalsAgainst := 0, goalDifference := 0, form := none }

/-- The head-to-head record of the C4 counterexample: one home win,
three away wins, no draws. -/
def c4H2H : HeadToHeadRecord :=
  { «matches» := [], team1Wins := 1, draws := 0, team2Wins := 3 }

/-- The C4 counterexample input: mandatory standings only, a
head-to-head record chosen so the composite edge is exactly zero, and
market odds `(100, 1, 100)` whose implied draw probability is extreme.
At edge zero the real `Math.exp` and `Math.tanh` are evaluated at 0,
where their values are exactly 1 and 0. -/
def c4Input : CalculateStatsInput :=
  { homeStanding := bareStanding 1 "A"
    awayStanding := bareStanding 2 "B"
    headToHead := some c4H2H
    odds := some { homeWin := 100, draw := 1, awayWin := 100, bookmaker := "x" } }

/-- A sample xG record keyed by Manchester City for the lookup
evaluations of C5. -/
def mcXG : TeamXG :=
  { team := "Manchester City", «matches» := 10, xG := 20, xGA := 10, xGPerMatch := 2,
    xGAPerMatch := 1, xGDiff := 0, recentXGPerMatch := some 2, recentXGAPerMatch := some 1,
    xGTrend := some 0 }

/-- A two-team-roster, two-match log for the C7 counterexample: team 1
beats team 3, then team 2 beats team 3 by a larger margin, lifting
team 2 above team 1 and changing team 1's rank without team 1 playing. -/
def c7Roster : List (ℕ × Team) :=
  [(1, mkTeam 1 "A"), (2, mkTeam 2 "B"), (3, mkTeam 3 "C")]

/-- See `c7Roster`. -/
def c7Log : List FinishedMatch :=
  [ { utcDate := "d1", homeTeamId := 1, awayTeamId := 3, scoreHome := some 1, scoreAway := some 0 }
  , { utcDate := "d2", homeTeamId := 2, awayTeamId := 3, scoreHome := some 2, scoreAway := some 0 } ]

/-- A one-match dataset whose only fixture has no prior history, for the
C9 witness. -/
def c9Data : BacktestData :=
  { validMatches :=
      [{ utcDate := "d1", homeTeamId := 1, awayTeamId := 2, scoreHome := some 1, scoreAway := some 0 }]
    teamMap := [(1, mkTeam 1 "A"), (2, mkTeam 2 "B")]
    allXG := []
    allElo := [] }

-- ===== Sorting lemmas =====

theorem insertLe_perm (le : α → α → Bool) (x : α) (l : List α) :
    List.Perm (insertLe le x l) (x :: l) := by
  induction l with
  | nil => exact List.Perm.refl _
  | cons y l ih =>
    unfold insertLe
    by_cases h : le y x
    · rw [if_pos h]
      exact (ih.cons y).trans (List.Perm.swap x y l)
    · rw [if_neg h]

theorem foldl_insertLe_perm (le : α → α → Bool) (l : List α) :
    ∀ acc, List.Perm (l.foldl (fun acc x => insertLe le x acc) acc) (acc ++ l) := by
  induction l with
  | nil => intro acc; simp
  | cons x l ih =>
    intro acc
    simp only [List.foldl_cons]
    refine (ih _).trans ?_
    refine (List.Perm.append_right l (insertLe_perm le x acc)).trans ?_
    exact List.perm_middle.symm

theorem jsSortBy_perm (le : α → α → Bool) (l : List α) :
    List.Perm (jsSortBy le l) l := by
  simpa [jsSortBy] using foldl_insertLe_perm le l []

theorem insertLe_pairwise (le : α → α → Bool)
    (htrans : ∀ a b c, le a b = true → le b c = true → le a c = true)
    (htotal : ∀ a b, le a b = true ∨ le b a = true)
    (x : α) (l : List α) (hl : l.Pairwise (fun a b => le a b = true)) :
    (insertLe le x l).Pairwise (fun a b => le a b = true) := by
  induction l with
  | nil => simp [insertLe]
  | cons y l ih =>
    rcases List.pairwise_cons.mp hl with ⟨hy, hl2⟩
    unfold insertLe
    by_cases h : le y x
    · rw [if_pos h]
      refine List.pairwise_cons.mpr ⟨?_, ih hl2⟩
      intro b hb
      rcases List.mem_cons.mp ((insertLe_perm le x l).mem_iff.mp hb) with rfl | hbl
      · exact h
      · exact hy b hbl
    · rw [if_neg h]
      have hxy : le x y = true := (htotal x y).resolve_right fun hyx => h hyx
      refine List.pairwise_cons.mpr ⟨?_, hl⟩
      intro b hb
      rcases List.mem_cons.mp hb with rfl | hbl
      · exact hxy
      · exact htrans x y b hxy (hy b hbl)

theorem jsSortBy_pairwise (le : α → α → Bool)
    (htrans : ∀ a b c, le a b = true → le b c = true → le a c = true)
    (htotal : ∀ a b, le a b = true ∨ le b a = true)
    (l : List α) :
    (jsSortBy le l).Pairwise (fun a b => le a b = true) := by
  suffices h : ∀ acc, acc.Pairwise (fun a b => le a b = true) →
      (l.foldl (fun acc x => insertLe le x acc) acc).Pairwise (fun a b => le a b = true) by
    exact h [] (List.Pairwise.nil)
  induction l with
  | nil => intro acc hacc; simpa using hacc
  | cons x l ih =>
    intro acc hacc
    simp only [List.foldl_cons]
    exact ih _ (insertLe_pairwise le htrans htotal x acc hacc)

-- ===== Largest-remainder lemmas =====

theorem applyDeficit_sum (ks : List String) :
    ∀ (d : ℤ) (t : ℤ × ℤ × ℤ),
      sumT (applyDeficit ks d t) = sumT t + min (max d 0) ks.length := by
  induction ks with
  | nil => intro d t; simp [applyDeficit, sumT]
  | cons k ks ih =>
    intro d t
    obtain ⟨h, d2, a⟩ := t
    unfold applyDeficit
    by_cases hd : d ≤ 0
    · rw [if_pos hd]
      simp only [sumT, List.length_cons]
      push_cast
      omega
    · rw [if_neg hd]
      rw [ih]
      simp only [sumT, List.length_cons]
      split_ifs <;> push_cast <;> omega

theorem applyDeficit_mono (ks : List String) :
    ∀ (d : ℤ) (t : ℤ × ℤ × ℤ),
      t.1 ≤ (applyDeficit ks d t).1 ∧ t.2.1 ≤ (applyDeficit ks d t).2.1 ∧
        t.2.2 ≤ (applyDeficit ks d t).2.2 := by
  induction ks with
  | nil => intro d t; simp [applyDeficit]
  | cons k ks ih =>
    intro d t
    obtain ⟨h, d2, a⟩ := t
    unfold applyDeficit
    by_cases hd : d ≤ 0
    · rw [if_pos hd]; exact ⟨le_refl _, le_refl _, le_refl _⟩
    · rw [if_neg hd]
      split_ifs with h1 h2
      · have := ih (d - 1) (h + 1, d2, a)
        simp only at this ⊢
        exact ⟨by omega, by omega, by omega⟩
      · have := ih (d - 1) (h, d2 + 1, a)
        simp only at this ⊢
        exact ⟨by omega, by omega, by omega⟩
      · have := ih (d - 1) (h, d2, a + 1)
        simp only at this ⊢
        exact ⟨by omega, by omega, by omega⟩

theorem largestRemainder_spec (t : ℚ × ℚ × ℚ)
    (h1 : 0 ≤ t.1) (h2 : 0 ≤ t.2.1) (h3 : 0 ≤ t.2.2)
    (hsum : t.1 + t.2.1 + t.2.2 = 1) :
    sumT (largestRemainder t) = 100 ∧ 0 ≤ (largestRemainder t).1 ∧
      0 ≤ (largestRemainder t).2.1 ∧ 0 ≤ (largestRemainder t).2.2 := by
  obtain ⟨x, y, z⟩ := t
  simp only at h1 h2 h3 hsum
  have hx : (0:ℚ) ≤ x * 100 := by positivity
  have hy : (0:ℚ) ≤ y * 100 := by positivity
  have hz : (0:ℚ) ≤ z * 100 := by positivity
  have hfx : (0:ℤ) ≤ ⌊x * 100⌋ := Int.floor_nonneg.mpr hx
  have hfy : (0:ℤ) ≤ ⌊y * 100⌋ := Int.floor_nonneg.mpr hy
  have hfz : (0:ℤ) ≤ ⌊z * 100⌋ := Int.floor_nonneg.mpr hz
  have hup : ⌊x * 100⌋ + ⌊y * 100⌋ + ⌊z * 100⌋ ≤ 100 := by
    have : ((⌊x * 100⌋ + ⌊y * 100⌋ + ⌊z * 100⌋ : ℤ) : ℚ) ≤ 100 := by
      push_cast
      have e1 := Int.floor_le (x * 100)
      have e2 := Int.floor_le (y * 100)
      have e3 := Int.floor_le (z * 100)
      nlinarith
    exact_mod_cast this
  have hlow : (97:ℤ) < ⌊x * 100⌋ + ⌊y * 100⌋ + ⌊z * 100⌋ := by
    have : (97:ℚ) < ((⌊x * 100⌋ + ⌊y * 100⌋ + ⌊z * 100⌋ : ℤ) : ℚ) := by
      push_cast
      have e1 := Int.lt_floor_add_one (x * 100)
      have e2 := Int.lt_floor_add_one (y * 100)
      have e3 := Int.lt_floor_add_one (z * 100)
      nlinarith
    exact_mod_cast this
  have hlen : (jsSortBy (fun a b => decide (b.2 ≤ a.2))
      [("h", x * 100 - ⌊x * 100⌋), ("d", y * 100 - ⌊y * 100⌋),
        ("a", z * 100 - ⌊z * 100⌋)]).length = 3 :=
    (jsSortBy_perm _ _).length_eq
  simp only [largestRemainder]
  constructor
  · rw [applyDeficit_sum]
    rw [List.length_map, hlen]
    simp only [sumT]
    omega
  · have hm := applyDeficit_mono
      ((jsSortBy (fun a b => decide (b.2 ≤ a.2))
        [("h", x * 100 - ⌊x * 100⌋), ("d", y * 100 - ⌊y * 100⌋),
          ("a", z * 100 - ⌊z * 100⌋)]).map Prod.fst)
      (100 - (⌊x * 100⌋ + ⌊y * 100⌋ + ⌊z * 100⌋)) (⌊x * 100⌋, ⌊y * 100⌋, ⌊z * 100⌋)
    exact ⟨le_trans hfx hm.1, le_trans hfy hm.2.1, le_trans hfz hm.2.2⟩

-- ===== Clamp and renormalization lemmas =====

theorem clampTriple_bounds (b : Bool) (t : ℚ × ℚ × ℚ) :
    3/100 ≤ (clampTriple b t).1 ∧ (clampTriple b t).1 ≤ maxClamp b ∧
      5/100 ≤ (clampTriple b t).2.1 ∧ (clampTriple b t).2.1 ≤ 55/100 ∧
      3/100 ≤ (clampTriple b t).2.2 ∧ (clampTriple b t).2.2 ≤ maxClamp b := by
  have hb : (3:ℚ)/100 ≤ maxClamp b := by cases b <;> norm_num [maxClamp]
  unfold clampTriple
  exact ⟨le_max_left _ _, max_le hb (min_le_left _ _), le_max_left _ _,
    max_le (by norm_num) (min_le_left _ _), le_max_left _ _, max_le hb (min_le_left _ _)⟩

theorem renormTriple_spec (t : ℚ × ℚ × ℚ)
    (h1 : 0 < t.1) (h2 : 0 < t.2.1) (h3 : 0 < t.2.2) :
    0 ≤ (renormTriple t).1 ∧ 0 ≤ (renormTriple t).2.1 ∧ 0 ≤ (renormTriple t).2.2 ∧
      (renormTriple t).1 + (renormTriple t).2.1 + (renormTriple t).2.2 = 1 := by
  have hs : 0 < t.1 + t.2.1 + t.2.2 := by linarith
  unfold renormTriple
  refine ⟨by positivity, by positivity, by positivity, ?_⟩
  rw [div_add_div_same, div_add_div_same, div_self hs.ne.symm]

-- ===== Claim theorems =====

/-- C1: for every input to the scoring engine (and every model of the
transcendental helpers), the three returned probabilities are
non-negative integers summing to exactly 100; the rounding is the
largest-remainder allocation embodied in `largestRemainder`, which
`calculateStats` applies to the renormalized clamped triple. -/
theorem C1_distribution_sums_to_100 (input : CalculateStatsInput) (expQ tanhQ : ℚ → ℚ) :
    (calculateStats input expQ tanhQ).homeScore + (calculateStats input expQ tanhQ).drawScore +
        (calculateStats input expQ tanhQ).awayScore = 100 ∧
      0 ≤ (calculateStats input expQ tanhQ).homeScore ∧
      0 ≤ (calculateStats input expQ tanhQ).drawScore ∧
      0 ≤ (calculateStats input expQ tanhQ).awayScore := by
  have hc := clampTriple_bounds input.odds.isSome (rawTriple input expQ tanhQ)
  set c := clampTriple input.odds.isSome (rawTriple input expQ tanhQ) with hcdef
  have h1 : (0:ℚ) < c.1 := lt_of_lt_of_le (by norm_num) hc.1
  have h2 : (0:ℚ) < c.2.1 := lt_of_lt_of_le (by norm_num) hc.2.2.1
  have h3 : (0:ℚ) < c.2.2 := lt_of_lt_of_le (by norm_num) hc.2.2.2.2.1
  have hr := renormTriple_spec c h1 h2 h3
  have hl := largestRemainder_spec (renormTriple c) hr.1 hr.2.1 hr.2.2.1 hr.2.2.2
  simp only [sumT] at hl
  simpa only [calculateStats, hcdef] using hl

/-- C2: the weights actually multiplied into the composite sums total
exactly 1 (hence within the claimed 1e-9) both with and without the
market-odds signal, and without odds each remaining factor's weight is
the common multiple `1 / nonOddsSum` of its own baseline (proportional
redistribution). -/
theorem C2_applied_weights_sum_one :
    weightsTotal (appliedWeights true) = 1 ∧
      weightsTotal (appliedWeights false) = 1 ∧
      |weightsTotal (appliedWeights true) - 1| ≤ 1 / 1000000000 ∧
      |weightsTotal (appliedWeights false) - 1| ≤ 1 / 1000000000 ∧
      (appliedWeights false).odds = 0 ∧
      ∃ c : ℚ, 1 < c ∧
        (appliedWeights false).xG = c * baseWeights.xG ∧
        (appliedWeights false).venue = c * baseWeights.venue ∧
        (appliedWeights false).form = c * baseWeights.form ∧
        (appliedWeights false).elo = c * baseWeights.elo ∧
        (appliedWeights false).injuries = c * baseWeights.injuries ∧
        (appliedWeights false).xGTrend = c * baseWeights.xGTrend ∧
        (appliedWeights false).sos = c * baseWeights.sos ∧
        (appliedWeights false).fatigue = c * baseWeights.fatigue ∧
        (appliedWeights false).squad = c * baseWeights.squad ∧
        (appliedWeights false).h2h = c * baseWeights.h2h ∧
        (appliedWeights false).defFactor = c * baseWeights.defFactor ∧
        (appliedWeights false).context = c * baseWeights.context ∧
        (appliedWeights false).referee = c * baseWeights.referee := by
  refine ⟨?_, ?_, ?_, ?_, ?_, 4/3, ?_⟩ <;>
    norm_num [weightsTotal, appliedWeights, baseWeights, nonOddsSum]

/-- C3 counterexample: the home/away venue factor degrades to 0.55/0.45
(not 0.5) and the injuries factor degrades to 1 (not 0.5) when their
signals are absent, so "every transform degrades to neutral 0.5" fails
exactly at the two transforms the claim singles out. -/
theorem C3_counterexample :
    homeVenueScore none = 11/20 ∧ awayVenueScore none = 9/20 ∧
      injuryScore none none = 1 ∧
      ¬ homeVenueScore none = 1/2 ∧ ¬ awayVenueScore none = 1/2 ∧
      ¬ injuryScore none none = 1/2 := by
  norm_num [homeVenueScore, awayVenueScore, injuryScore, computeInjuryPenalty]

/-- C3 amended: every factor transform except the venue factor and the
injuries factor yields the neutral 0.5 when its backing signal is
absent; the venue factor degrades to the calibrated 0.55 (home) and 0.45
(away), and the injuries factor to 1 (no absences, no penalty). -/
theorem C3_amended :
    eloScoreOf none = 1/2 ∧ xgSideScore none = 1/2 ∧ formScore none = 1/2 ∧
      xgTrendScore none = 1/2 ∧ safeNum none (1/2) = 1/2 ∧
      fatigueScore none true = 1/2 ∧ fatigueScore none false = 1/2 ∧
      homeH2HScore none = 1/2 ∧ awayH2HScore none = 1/2 ∧
      homeDefScore none = 1/2 ∧ awayDefScore none = 1/2 ∧
      sosScoreOf none = 1/2 ∧ homeContextScore none = 1/2 ∧
      awayContextScore none = 1/2 ∧ refScore none = 1/2 ∧
      homeOddsScore none = 1/2 ∧ awayOddsScore none = 1/2 ∧
      homeVenueScore none = 11/20 ∧ awayVenueScore none = 9/20 ∧
      injuryScore none none = 1 := by
  norm_num [eloScoreOf, xgSideScore, formScore, xgTrendScore, safeNum, fatigueScore,
    homeH2HScore, awayH2HScore, homeDefScore, awayDefScore, sosScoreOf, homeContextScore,
    awayContextScore, refScore, homeOddsScore, awayOddsScore, homeVenueScore,
    awayVenueScore, injuryScore, computeInjuryPenalty]

/-- C4 amended: the mode-dependent plausible ranges hold for the clamped
values before renormalization — home and away in `[0.03, 0.85]` with
odds and `[0.03, 0.80]` without, draw in `[0.05, 0.55]`; renormalization
and rounding can push the final integers outside these ranges (see the
counterexample). -/
theorem C4_clamped_ranges (input : CalculateStatsInput) (expQ tanhQ : ℚ → ℚ) :
    3/100 ≤ (clampTriple input.odds.isSome (rawTriple input expQ tanhQ)).1 ∧
      (clampTriple input.odds.isSome (rawTriple input expQ tanhQ)).1 ≤
        maxClamp input.odds.isSome ∧
      5/100 ≤ (clampTriple input.odds.isSome (rawTriple input expQ tanhQ)).2.1 ∧
      (clampTriple input.odds.isSome (rawTriple input expQ tanhQ)).2.1 ≤ 55/100 ∧
      3/100 ≤ (clampTriple input.odds.isSome (rawTriple input expQ tanhQ)).2.2 ∧
      (clampTriple input.odds.isSome (rawTriple input expQ tanhQ)).2.2 ≤
        maxClamp input.odds.isSome ∧
      maxClamp true = 85/100 ∧ maxClamp false = 80/100 := by
  obtain ⟨a1, a2, a3, a4, a5, a6⟩ :=
    clampTriple_bounds input.odds.isSome (rawTriple input expQ tanhQ)
  exact ⟨a1, a2, a3, a4, a5, a6, by norm_num [maxClamp], by norm_num [maxClamp]⟩

/-- C4 counterexample: at `c4Input` the composite edge is exactly 0 (so
`Math.exp` and `Math.tanh` are evaluated at 0, where they equal the
instantiated 1 and 0), odds are present, and the returned draw
percentage is 68 — outside the claimed `[5, 55]` range for the final
integers. -/
theorem C4_counterexample :
    diffOf c4Input = 0 ∧ c4Input.odds.isSome = true ∧
      (calculateStats c4Input (fun _ => 1) (fun _ => 0)).drawScore = 68 ∧
      ¬ (calculateStats c4Input (fun _ => 1) (fun _ => 0)).drawScore ≤ 55 := by
  have hdiff : diffOf c4Input = 0 := by
    norm_num [diffOf, homeTotalOf, awayTotalOf, c4Input, bareStanding, mkTeam, c4H2H,
      appliedWeights, baseWeights, nonOddsSum, homeOddsScore, awayOddsScore, oddsToProb,
      xgSideScore, homeVenueScore, awayVenueScore, formScore, eloScoreOf, injuryScore,
      computeInjuryPenalty, xgTrendScore, sosScoreOf, fatigueScore, safeNum,
      homeH2HScore, awayH2HScore, homeDefScore, awayDefScore, homeContextScore,
      awayContextScore, refScore]
  have hdraw : drawScoreOf c4Input (fun _ => 1) = 1573/2125 := by
    simp only [drawScoreOf, hdiff]
    norm_num [c4Input, oddsToProb]
  have hclamp : clampTriple c4Input.odds.isSome (rawTriple c4Input (fun _ => 1) (fun _ => 0)) =
      (276/2125, 11/20, 276/2125) := by
    simp only [rawTriple, hdraw, hdiff]
    norm_num [c4Input, clampTriple, maxClamp]
  have hren : renormTriple ((276:ℚ)/2125, 11/20, 276/2125) =
      (1104/6883, 4675/6883, 1104/6883) := by
    norm_num [renormTriple]
  have hlr : largestRemainder ((1104:ℚ)/6883, 4675/6883, 1104/6883) = (16, 68, 16) := by
    have f1 : ⌊(1104:ℚ)/6883 * 100⌋ = 16 := by
      rw [Int.floor_eq_iff]
      norm_num
    have f2 : ⌊(4675:ℚ)/6883 * 100⌋ = 67 := by
      rw [Int.floor_eq_iff]
      norm_num
    simp only [largestRemainder, f1, f2]
    norm_num [jsSortBy, insertLe, applyDeficit]
  refine ⟨hdiff, by norm_num [c4Input], ?_, ?_⟩ <;>
    simp only [calculateStats, hclamp, hren, hlr] <;> norm_num

set_option maxHeartbeats 1000000 in
/-- C5 evaluation at the failing input: `teamsMatch` DOES match
"Manchester United" with "Manchester City" (the shared token
"manchester" is non-generic and of length at least 4, satisfying the
word-level rule), contradicting the spec's required behaviour; the xG
and ELO lookups, by contrast, do not cross-match the two names. -/
theorem C5_manchester_eval :
    teamsMatch "Manchester United" "Manchester City" = true ∧
      findTeamElo [{ team := "Man City", elo := 1900 }] "Manchester United" = none ∧
      findTeamElo [{ team := "Man City", elo := 1900 }, { team := "Man United", elo := 1850 }]
          "Manchester United" = some { team := "Man United", elo := 1850 } ∧
      findTeamXG [("manchester city", mcXG)] "Manchester United" = none := by
  decide

/-- C8: determinism as a two-run property — equal inputs yield equal
outputs from the scoring engine and the standings reconstructor.  In
this embedding both are pure functions of their declared inputs (the
translation exhibits no hidden state, randomness, or clock reads), so
the two-run property holds by congruence. -/
theorem C8_determinism :
    (∀ (expQ tanhQ : ℚ → ℚ) (i₁ i₂ : CalculateStatsInput), i₁ = i₂ →
        calculateStats i₁ expQ tanhQ = calculateStats i₂ expQ tanhQ) ∧
      (∀ (l₁ l₂ : List FinishedMatch) (tm₁ tm₂ : List (ℕ × Team)), l₁ = l₂ → tm₁ = tm₂ →
        buildStandings l₁ tm₁ = buildStandings l₂ tm₂) := by
  constructor
  · intro expQ tanhQ i₁ i₂ h
    rw [h]
  · intro l₁ l₂ tm₁ tm₂ h1 h2
    rw [h1, h2]

/-- Witness for C8 at concrete inputs. -/
theorem C8_determinism_witness :
    calculateStats c4Input (fun _ => 1) (fun _ => 0) =
        calculateStats c4Input (fun _ => 1) (fun _ => 0) ∧
      buildStandings c7Log c7Roster = buildStandings c7Log c7Roster :=
  ⟨C8_determinism.1 (fun _ => 1) (fun _ => 0) c4Input c4Input rfl,
    C8_determinism.2 c7Log c7Log c7Roster c7Roster rfl rfl⟩

/-- C9: a fixture whose home or away side has fewer than `MIN_MATCHES`
prior matches is skipped: the loop iteration returns its accumulator
unchanged and the run continues with the next index (the step is a total
function, so no exception can arise). -/
theorem C9_insufficient_history_skipped (data : BacktestData) (expQ tanhQ : ℚ → ℚ)
    (results : List MatchResult) (i : ℕ) (fm : FinishedMatch)
    (hfm : data.validMatches.get? i = some fm)
    (hmin : playedBefore (data.validMatches.take i) fm.homeTeamId < MIN_MATCHES ∨
      playedBefore (data.validMatches.take i) fm.awayTeamId < MIN_MATCHES) :
    backtestStep data expQ tanhQ results i = results ∧
      backtestUpTo data expQ tanhQ (i + 1) = backtestUpTo data expQ tanhQ i := by
  have hstep : ∀ acc, backtestStep data expQ tanhQ acc i = acc := by
    intro acc
    unfold backtestStep
    rw [hfm]
    simp only
    rw [if_pos]
    rcases hmin with h | h
    · exact Bool.or_eq_true _ _ |>.mpr (Or.inl (decide_eq_true h))
    · exact Bool.or_eq_true _ _ |>.mpr (Or.inr (decide_eq_true h))
  exact ⟨hstep results, by simpa [backtestUpTo] using hstep (backtestUpTo data expQ tanhQ i)⟩

/-- Witness for C9: the single fixture of `c9Data` has no prior matches
on either side, so the first iteration appends nothing. -/
theorem C9_insufficient_history_skipped_witness :
    backtestStep c9Data (fun _ => 1) (fun _ => 0) [] 0 = [] ∧
      backtestUpTo c9Data (fun _ => 1) (fun _ => 0) 1 = backtestUpTo c9Data (fun _ => 1) (fun _ => 0) 0 :=
  C9_insufficient_history_skipped c9Data (fun _ => 1) (fun _ => 0) [] 0
    { utcDate := "d1", homeTeamId := 1, awayTeamId := 2, scoreHome := some 1, scoreAway := some 0 }
    (by decide) (Or.inl (by decide))

/-- C10: the factor list returned by the engine always has exactly 14
entries whose labels, order and recorded weights are fixed constants
(the baseline weights, summing to 1) regardless of which optional
signals are present — in particular also when odds are absent and the
internally applied weights differ from the recorded ones. -/
theorem C10_factor_list_fixed (input : CalculateStatsInput) (expQ tanhQ : ℚ → ℚ) :
    ((calculateStats input expQ tanhQ).factors.map fun f => (f.label, f.weight)) =
        [("Rating ELO", 7/100), ("xG récent (5 matchs)", 12/100),
          ("Forme récente (5 matchs)", 8/100), ("Bilan dom/ext", 10/100),
          ("Tendance xG", 5/100), ("Joueurs absents", 8/100),
          ("Qualité effectif", 4/100), ("Fatigue calendrier", 6/100),
          ("Confrontations directes", 2/100), ("Solidité défensive", 2/100),
          ("Difficulté calendrier", 5/100), ("Enjeux du match", 4/100),
          ("Profil arbitre", 2/100), ("Cotes du marché", 25/100)] ∧
      (calculateStats input expQ tanhQ).factors.length = 14 ∧
      ((calculateStats input expQ tanhQ).factors.map Factor.weight).sum = 1 := by
  refine ⟨?_, ?_, ?_⟩ <;> simp [calculateStats, factorsList] <;> norm_num

-- ===== Stats-map lemmas =====

theorem mget_cons (k' k0 : ℕ) (s : TeamStats) (m : StatsMap) :
    mget k' ((k0, s) :: m) = if k0 = k' then some s else mget k' m := by
  by_cases h : k0 = k'
  · simp [mget, List.find?_cons_of_pos, h]
  · rw [mget, List.find?_cons_of_neg _ (by simpa using h), if_neg h, mget]

theorem mupd_cons (k : ℕ) (f : TeamStats → TeamStats) (k0 : ℕ) (s : TeamStats) (m : StatsMap) :
    mupd k f ((k0, s) :: m) = (if k0 = k then (k0, f s) else (k0, s)) :: mupd k f m := by
  simp only [mupd, List.map_cons]
  by_cases h : k0 = k <;> simp [h]

theorem mget_mupd (k k' : ℕ) (f : TeamStats → TeamStats) (m : StatsMap) :
    mget k' (mupd k f m) = if k' = k then (mget k' m).map f else mget k' m := by
  induction m with
  | nil => by_cases h : k' = k <;> simp [mget, mupd, h]
  | cons p m ih =>
    obtain ⟨k0, s⟩ := p
    rw [mupd_cons]
    by_cases h0 : k0 = k
    · subst h0
      rw [if_pos rfl]
      by_cases h1 : k0 = k'
      · subst h1
        simp [mget_cons]
      · have hk : ¬ k' = k0 := fun hc => h1 hc.symm
        rw [mget_cons, if_neg h1, mget_cons, if_neg h1, ih, if_neg hk]
    · rw [if_neg h0]
      by_cases h1 : k0 = k'
      · subst h1
        have hk : ¬ k0 = k := h0
        rw [mget_cons, if_pos rfl, mget_cons, if_pos rfl, if_neg hk]
      · rw [mget_cons, if_neg h1, mget_cons, if_neg h1, ih]

theorem mget_mset_self (k : ℕ) (v : TeamStats) (m : StatsMap) :
    mget k (mset k v m) = some v := by
  induction m with
  | nil => simp [mset, mget_cons]
  | cons p m ih =>
    obtain ⟨k0, s⟩ := p
    unfold mset
    by_cases h : k0 = k
    · rw [if_pos h, mget_cons, if_pos h]
    · rw [if_neg h, mget_cons, if_neg h]
      exact ih

theorem mget_mset_ne (k k' : ℕ) (v : TeamStats) (m : StatsMap) (h : k' ≠ k) :
    mget k' (mset k v m) = mget k' m := by
  induction m with
  | nil =>
    have hk : ¬ k = k' := fun hc => h hc.symm
    simp [mset, mget_cons, hk, mget]
  | cons p m ih =>
    obtain ⟨k0, s⟩ := p
    unfold mset
    by_cases h0 : k0 = k
    · rw [if_pos h0, mget_cons, mget_cons]
      have : ¬ k0 = k' := fun hc => h (hc.symm.trans h0)
      rw [if_neg this, if_neg this]
    · rw [if_neg h0, mget_cons, mget_cons, ih]

theorem mget_ensure_ne (tm : List (ℕ × Team)) (tid t : ℕ) (m : StatsMap) (h : t ≠ tid) :
    mget t (ensureEntry tm tid m) = mget t m := by
  unfold ensureEntry
  by_cases hp : (mget tid m).isSome
  · rw [if_pos hp]
  · rw [if_neg hp]
    exact mget_mset_ne tid t _ m h

theorem mget_ensure_self (tm : List (ℕ × Team)) (t : ℕ) (m : StatsMap) :
    mget t (ensureEntry tm t m) = some ((mget t m).getD
      (initStats (((tm.find? fun p => p.1 == t).map Prod.snd).getD (defaultTeam t)))) := by
  unfold ensureEntry
  by_cases hp : (mget t m).isSome
  · rw [if_pos hp]
    obtain ⟨s, hs⟩ := Option.isSome_iff_exists.mp hp
    simp [hs]
  · rw [if_neg hp]
    rw [Option.not_isSome_iff_eq_none] at hp
    simp [hp, mget_mset_self]

theorem mget_statsStep_uninvolved (tm : List (ℕ × Team)) (m : StatsMap) (fm : FinishedMatch)
    (t : ℕ) (hh : t ≠ fm.homeTeamId) (ha : t ≠ fm.awayTeamId) :
    mget t (statsStep tm m fm) = mget t m := by
  unfold statsStep
  cases hsc : fm.scoreHome with
  | none => rfl
  | some hg =>
    cases hsa : fm.scoreAway with
    | none => rfl
    | some ag =>
      simp only
      split_ifs <;>
        simp only [mget_mupd, if_neg hh, if_neg ha, mget_ensure_ne tm _ t _ ha,
          mget_ensure_ne tm _ t _ hh]

-- ===== Key and id invariants =====

theorem keys_mupd (k : ℕ) (f : TeamStats → TeamStats) (m : StatsMap) :
    keys (mupd k f m) = keys m := by
  induction m with
  | nil => rfl
  | cons p m ih =>
    obtain ⟨k0, s⟩ := p
    rw [mupd_cons]
    unfold keys at ih ⊢
    by_cases h : k0 = k <;> simp [h, ih]

theorem mem_keys_mset (a k : ℕ) (v : TeamStats) (m : StatsMap) :
    a ∈ keys (mset k v m) → a ∈ keys m ∨ a = k := by
  induction m with
  | nil => intro h; simp [mset, keys] at h; exact Or.inr h
  | cons p m ih =>
    obtain ⟨k0, s⟩ := p
    unfold mset
    by_cases h0 : k0 = k
    · rw [if_pos h0]
      intro h
      exact Or.inl (by simpa [keys] using h)
    · rw [if_neg h0]
      intro h
      rcases by simpa [keys] using h with h1 | h1
      · exact Or.inl (by simp [keys, h1])
      · rcases ih (by simpa [keys] using h1) with h2 | h2
        · exact Or.inl (by simp [keys]; exact Or.inr (by simpa [keys] using h2))
        · exact Or.inr h2

theorem keys_mset_nodup (k : ℕ) (v : TeamStats) (m : StatsMap)
    (h : (keys m).Nodup) : (keys (mset k v m)).Nodup := by
  induction m with
  | nil => simp [mset, keys]
  | cons p m ih =>
    obtain ⟨k0, s⟩ := p
    rw [keys, List.map_cons] at h
    obtain ⟨h1, h2⟩ := List.nodup_cons.mp h
    unfold mset
    by_cases h0 : k0 = k
    · rw [if_pos h0]
      exact List.nodup_cons.mpr ⟨by simpa [keys] using h1, h2⟩
    · rw [if_neg h0]
      refine List.nodup_cons.mpr ⟨?_, ih h2⟩
      intro hc
      rcases mem_keys_mset _ _ _ _ (by simpa [keys] using hc) with h3 | h3
      · exact h1 (by simpa [keys] using h3)
      · exact h0 h3

theorem keys_ensure_nodup (tm : List (ℕ × Team)) (tid : ℕ) (m : StatsMap)
    (h : (keys m).Nodup) : (keys (ensureEntry tm tid m)).Nodup := by
  unfold ensureEntry
  split_ifs
  · exact h
  · exact keys_mset_nodup _ _ _ h

theorem keys_statsStep_nodup (tm : List (ℕ × Team)) (m : StatsMap) (fm : FinishedMatch)
    (h : (keys m).Nodup) : (keys (statsStep tm m fm)).Nodup := by
  unfold statsStep
  cases fm.scoreHome with
  | none => exact h
  | some hg =>
    cases fm.scoreAway with
    | none => exact h
    | some ag =>
      simp only
      split_ifs <;>
        simp only [keys_mupd] <;>
        exact keys_ensure_nodup _ _ _ (keys_ensure_nodup _ _ _ h)

theorem keys_statsAfter_nodup (tm : List (ℕ × Team)) (log : List FinishedMatch) :
    (keys (statsAfter tm log)).Nodup := by
  have hinit : ∀ (l : List (ℕ × Team)) (acc : StatsMap), (keys acc).Nodup →
      (keys (l.foldl (fun m p => mset p.1 (initStats p.2) m) acc)).Nodup := by
    intro l
    induction l with
    | nil => intro acc h; exact h
    | cons p l ih => intro acc h; exact ih _ (keys_mset_nodup _ _ _ h)
  induction log using List.reverseRecOn with
  | nil => exact hinit tm [] (by simp [keys])
  | append_singleton l fm ih =>
    rw [statsAfter, List.foldl_append]
    exact keys_statsStep_nodup _ _ _ ih

theorem idsInv_mupd (k : ℕ) (f : TeamStats → TeamStats) (m : StatsMap)
    (hf : ∀ s, (f s).team = s.team) (h : IdsInv m) : IdsInv (mupd k f m) := by
  intro p hp
  unfold mupd at hp
  obtain ⟨q, hq, rfl⟩ := List.mem_map.mp hp
  by_cases hb : (q.1 == k) = true
  · rw [if_pos hb]
    simpa [hf] using h q hq
  · rw [if_neg hb]
    exact h q hq

theorem idsInv_mset (k : ℕ) (v : TeamStats) (m : StatsMap)
    (hv : v.team.id = k) (h : IdsInv m) : IdsInv (mset k v m) := by
  induction m with
  | nil =>
    intro p hp
    simp only [mset, List.mem_singleton] at hp
    simp [hp, hv]
  | cons q m ih =>
    obtain ⟨k0, s⟩ := q
    unfold mset
    by_cases h0 : k0 = k
    · rw [if_pos h0]
      intro p hp
      rcases List.mem_cons.mp hp with rfl | hp2
      · simpa [h0] using hv
      · exact h p (List.mem_cons_of_mem _ hp2)
    · rw [if_neg h0]
      intro p hp
      rcases List.mem_cons.mp hp with rfl | hp2
      · exact h (k0, s) (List.mem_cons_self _ _)
      · exact ih (fun q hq => h q (List.mem_cons_of_mem _ hq)) p hp2

theorem idsInv_ensure (tm : List (ℕ × Team)) (tid : ℕ) (m : StatsMap)
    (hwf : RosterWF tm) (h : IdsInv m) : IdsInv (ensureEntry tm tid m) := by
  unfold ensureEntry
  split_ifs
  · exact h
  · refine idsInv_mset _ _ _ ?_ h
    cases hf : tm.find? fun p => p.1 == tid with
    | none => simp [hf, initStats, defaultTeam]
    | some p =>
      have hp := List.find?_some hf
      have hmem := List.mem_of_find?_eq_some hf
      have : p.1 = tid := by simpa using hp
      simp [hf, initStats, hwf p hmem, this]

set_option maxHeartbeats 1000000 in
theorem idsInv_statsStep (tm : List (ℕ × Team)) (m : StatsMap) (fm : FinishedMatch)
    (hwf : RosterWF tm) (h : IdsInv m) : IdsInv (statsStep tm m fm) := by
  unfold statsStep
  cases fm.scoreHome with
  | none => exact h
  | some hg =>
    cases fm.scoreAway with
    | none => exact h
    | some ag =>
      simp only
      have hbase : IdsInv (ensureEntry tm fm.awayTeamId (ensureEntry tm fm.homeTeamId m)) :=
        idsInv_ensure _ _ _ hwf (idsInv_ensure _ _ _ hwf h)
      split_ifs <;>
        · repeat refine idsInv_mupd _ _ _ (fun s => rfl) ?_
          exact hbase

theorem idsInv_statsAfter (tm : List (ℕ × Team)) (log : List FinishedMatch)
    (hwf : RosterWF tm) : IdsInv (statsAfter tm log) := by
  have hinit : ∀ (l : List (ℕ × Team)), RosterWF l → ∀ (acc : StatsMap), IdsInv acc →
      IdsInv (l.foldl (fun m p => mset p.1 (initStats p.2) m) acc) := by
    intro l hl
    induction l with
    | nil => intro acc h; exact h
    | cons p l ih =>
      intro acc h
      refine ih (fun q hq => hl q (List.mem_cons_of_mem _ hq)) _ ?_
      exact idsInv_mset _ _ _ (by simpa [initStats] using hl p (List.mem_cons_self _ _)) h
  induction log using List.reverseRecOn with
  | nil =>
    refine hinit tm hwf [] ?_
    intro p hp
    exact absurd hp (List.not_mem_nil p)
  | append_singleton l fm ih =>
    rw [statsAfter, List.foldl_append]
    exact idsInv_statsStep _ _ _ hwf ih

-- ===== Involved-entry characterization of one step =====

theorem mget_statsStep_home (tm : List (ℕ × Team)) (m : StatsMap)
    (du : String) (hid aid hg ag : ℕ) (hne : hid ≠ aid) :
    mget hid (statsStep tm m ⟨du, hid, aid, some hg, some ag⟩) =
      some (applyMatchHome hg ag (baseEntry tm hid m)) := by
  have hne2 : aid ≠ hid := fun h => hne h.symm
  have hens : mget hid (ensureEntry tm aid (ensureEntry tm hid m)) =
      some (baseEntry tm hid m) := by
    rw [mget_ensure_ne _ _ _ _ hne, mget_ensure_self]
    rfl
  unfold statsStep
  dsimp only
  split_ifs with h1 h2 <;>
    simp only [mget_mupd, eq_self_iff_true, if_true, if_neg hne, hens, Option.map_some] <;>
    simp [applyMatchHome, h1, *]

theorem mget_statsStep_away (tm : List (ℕ × Team)) (m : StatsMap)
    (du : String) (hid aid hg ag : ℕ) (hne : hid ≠ aid) :
    mget aid (statsStep tm m ⟨du, hid, aid, some hg, some ag⟩) =
      some (applyMatchAway hg ag (baseEntry tm aid m)) := by
  have hne2 : aid ≠ hid := fun h => hne h.symm
  have hens : mget aid (ensureEntry tm aid (ensureEntry tm hid m)) =
      some (baseEntry tm aid m) := by
    rw [mget_ensure_self, mget_ensure_ne _ _ _ _ hne2]
    rfl
  unfold statsStep
  dsimp only
  split_ifs with h1 h2 <;>
    simp only [mget_mupd, eq_self_iff_true, if_true, if_neg hne2, hens, Option.map_some] <;>
    simp [applyMatchAway, h1, *]

theorem mget_statsStep_both (tm : List (ℕ × Team)) (m : StatsMap)
    (du : String) (tid hg ag : ℕ) :
    mget tid (statsStep tm m ⟨du, tid, tid, some hg, some ag⟩) =
      some (applyMatchAway hg ag (applyMatchHome hg ag (baseEntry tm tid m))) := by
  have hens : mget tid (ensureEntry tm tid (ensureEntry tm tid m)) =
      some (baseEntry tm tid m) := by
    rw [mget_ensure_self, mget_ensure_self]
    simp [baseEntry]
  unfold statsStep
  dsimp only
  split_ifs with h1 h2 <;>
    simp only [mget_mupd, eq_self_iff_true, if_true, hens, Option.map_some] <;>
    simp [applyMatchHome, applyMatchAway, h1, *]

-- ===== Chronological results invariant =====

theorem resultsOfTeam_append (t : ℕ) (l1 l2 : List FinishedMatch) :
    resultsOfTeam t (l1 ++ l2) = resultsOfTeam t l1 ++ resultsOfTeam t l2 := by
  simp [resultsOfTeam]

theorem resultsOfMatchFor_uninvolved (t : ℕ) (fm : FinishedMatch)
    (hh : t ≠ fm.homeTeamId) (ha : t ≠ fm.awayTeamId) :
    resultsOfMatchFor t fm = [] := by
  unfold resultsOfMatchFor
  cases fm.scoreHome <;> cases fm.scoreAway <;>
    simp [Ne.symm hh, Ne.symm ha]

theorem resultsOfMatchFor_home (du : String) (hid aid hg ag : ℕ) (hne : hid ≠ aid) :
    resultsOfMatchFor hid ⟨du, hid, aid, some hg, some ag⟩ =
      [if ag < hg then "W" else if hg < ag then "L" else "D"] := by
  unfold resultsOfMatchFor
  simp [Ne.symm hne]

theorem resultsOfMatchFor_away (du : String) (hid aid hg ag : ℕ) (hne : hid ≠ aid) :
    resultsOfMatchFor aid ⟨du, hid, aid, some hg, some ag⟩ =
      [if hg < ag then "W" else if ag < hg then "L" else "D"] := by
  unfold resultsOfMatchFor
  simp [hne]

theorem resultsOfMatchFor_both (du : String) (tid hg ag : ℕ) :
    resultsOfMatchFor tid ⟨du, tid, tid, some hg, some ag⟩ =
      [if ag < hg then "W" else if hg < ag then "L" else "D",
        if hg < ag then "W" else if ag < hg then "L" else "D"] := by
  unfold resultsOfMatchFor
  simp

theorem applyMatchHome_fields (hg ag : ℕ) (s : TeamStats) :
    (applyMatchHome hg ag s).results =
        s.results ++ [if ag < hg then "W" else if hg < ag then "L" else "D"] ∧
      (applyMatchHome hg ag s).played = s.played + 1 := by
  unfold applyMatchHome
  split_ifs <;> first | (exfalso; omega) | simp

theorem applyMatchAway_fields (hg ag : ℕ) (s : TeamStats) :
    (applyMatchAway hg ag s).results =
        s.results ++ [if hg < ag then "W" else if ag < hg then "L" else "D"] ∧
      (applyMatchAway hg ag s).played = s.played + 1 := by
  unfold applyMatchAway
  split_ifs <;> first | (exfalso; omega) | simp

theorem statsStep_noneHome (tm : List (ℕ × Team)) (m : StatsMap)
    (du : String) (hid aid : ℕ) (sa : Option ℕ) :
    statsStep tm m ⟨du, hid, aid, none, sa⟩ = m := by
  cases sa <;> rfl

theorem statsStep_noneAway (tm : List (ℕ × Team)) (m : StatsMap)
    (du : String) (hid aid : ℕ) (sh : Option ℕ) :
    statsStep tm m ⟨du, hid, aid, sh, none⟩ = m := by
  cases sh <;> rfl

theorem resultsOfMatchFor_noneHome (t : ℕ) (du : String) (hid aid : ℕ) (sa : Option ℕ) :
    resultsOfMatchFor t ⟨du, hid, aid, none, sa⟩ = [] := by
  cases sa <;> rfl

theorem resultsOfMatchFor_noneAway (t : ℕ) (du : String) (hid aid : ℕ) (sh : Option ℕ) :
    resultsOfMatchFor t ⟨du, hid, aid, sh, none⟩ = [] := by
  cases sh <;> rfl

theorem baseEntry_results (tm : List (ℕ × Team)) (t : ℕ) (m : StatsMap)
    (log : List FinishedMatch) (h : ResultsInv log m) :
    (baseEntry tm t m).results = resultsOfTeam t log ∧
      (baseEntry tm t m).played = (baseEntry tm t m).results.length := by
  unfold baseEntry
  cases hmk : mget t m with
  | none =>
    have := h.1 t hmk
    simp [initStats, this]
  | some s0 =>
    obtain ⟨h1, h2⟩ := h.2 t s0 hmk
    simp [h1, h2]

theorem resultsInv_statsStep (tm : List (ℕ × Team)) (m : StatsMap) (fm : FinishedMatch)
    (log : List FinishedMatch) (h : ResultsInv log m) :
    ResultsInv (log ++ [fm]) (statsStep tm m fm) := by
  obtain ⟨du, hid, aid, sh, sa⟩ := fm
  have hsingle : ∀ t (fm' : FinishedMatch), resultsOfTeam t [fm'] = resultsOfMatchFor t fm' := by
    intro t fm'
    simp [resultsOfTeam]
  cases sh with
  | none =>
    rw [statsStep_noneHome]
    constructor
    · intro k hk
      rw [resultsOfTeam_append, h.1 k hk, hsingle, resultsOfMatchFor_noneHome]
      rfl
    · intro k s hs
      obtain ⟨h1, h2⟩ := h.2 k s hs
      rw [resultsOfTeam_append, hsingle, resultsOfMatchFor_noneHome]
      simpa [h1] using h2
  | some hg =>
    cases sa with
    | none =>
      rw [statsStep_noneAway]
      constructor
      · intro k hk
        rw [resultsOfTeam_append, h.1 k hk, hsingle, resultsOfMatchFor_noneAway]
        rfl
      · intro k s hs
        obtain ⟨h1, h2⟩ := h.2 k s hs
        rw [resultsOfTeam_append, hsingle, resultsOfMatchFor_noneAway]
        simpa [h1] using h2
    | some ag =>
      constructor
      · intro k hk
        rcases eq_or_ne k hid with rfl | hh
        · rcases eq_or_ne k aid with rfl | hne
          · rw [mget_statsStep_both] at hk
            exact absurd hk (by simp)
          · rw [mget_statsStep_home tm m du _ aid hg ag hne] at hk
            exact absurd hk (by simp)
        · rcases eq_or_ne k aid with rfl | ha
          · rw [mget_statsStep_away tm m du hid _ hg ag (Ne.symm hh)] at hk
            exact absurd hk (by simp)
          · rw [mget_statsStep_uninvolved tm m _ k hh ha] at hk
            rw [resultsOfTeam_append, h.1 k hk, hsingle,
              resultsOfMatchFor_uninvolved k _ hh ha]
            rfl
      · intro k s hs
        obtain ⟨hb1, hb2⟩ := baseEntry_results tm k m log h
        rw [resultsOfTeam_append, hsingle]
        rcases eq_or_ne k hid with rfl | hh
        · rcases eq_or_ne k aid with rfl | hne
          · rw [mget_statsStep_both] at hs
            obtain rfl := (Option.some.inj hs).symm
            obtain ⟨ha1, ha2⟩ := applyMatchAway_fields hg ag (applyMatchHome hg ag (baseEntry tm k m))
            obtain ⟨hh1, hh2⟩ := applyMatchHome_fields hg ag (baseEntry tm k m)
            rw [resultsOfMatchFor_both]
            constructor
            · rw [ha1, hh1, hb1]
              simp
            · rw [ha2, hh2, ha1, hh1, hb2]
              simp
          · rw [mget_statsStep_home tm m du _ aid hg ag hne] at hs
            obtain rfl := (Option.some.inj hs).symm
            obtain ⟨hh1, hh2⟩ := applyMatchHome_fields hg ag (baseEntry tm k m)
            rw [resultsOfMatchFor_home du _ aid hg ag hne]
            constructor
            · rw [hh1, hb1]
            · rw [hh2, hh1, hb2]
              simp
        · rcases eq_or_ne k aid with rfl | ha
          · rw [mget_statsStep_away tm m du hid _ hg ag (Ne.symm hh)] at hs
            obtain rfl := (Option.some.inj hs).symm
            obtain ⟨ha1, ha2⟩ := applyMatchAway_fields hg ag (baseEntry tm k m)
            rw [resultsOfMatchFor_away du hid _ hg ag (Ne.symm hh)]
            constructor
            · rw [ha1, hb1]
            · rw [ha2, ha1, hb2]
              simp
          · rw [mget_statsStep_uninvolved tm m _ k hh ha] at hs
            obtain ⟨h1, h2⟩ := h.2 k s hs
            rw [resultsOfMatchFor_uninvolved k _ hh ha]
            simpa [h1] using h2

theorem mget_initMap_initStats (tm : List (ℕ × Team)) (k : ℕ) (s : TeamStats)
    (hs : mget k (initMap tm) = some s) : ∃ team, s = initStats team := by
  suffices h : ∀ (l : List (ℕ × Team)) (acc : StatsMap),
      (∀ k s, mget k acc = some s → ∃ team, s = initStats team) →
      ∀ k s, mget k (l.foldl (fun m p => mset p.1 (initStats p.2) m) acc) = some s →
        ∃ team, s = initStats team by
    refine h tm [] ?_ k s hs
    intro k s hs
    simp [mget] at hs
  intro l
  induction l with
  | nil => intro acc hacc; exact hacc
  | cons p l ih =>
    intro acc hacc
    refine ih _ ?_
    intro k2 s2 hs2
    rcases eq_or_ne k2 p.1 with rfl | hne
    · rw [mget_mset_self] at hs2
      exact ⟨p.2, (Option.some.inj hs2).symm⟩
    · rw [mget_mset_ne _ _ _ _ hne] at hs2
      exact hacc _ _ hs2

theorem resultsInv_statsAfter (tm : List (ℕ × Team)) (log : List FinishedMatch) :
    ResultsInv log (statsAfter tm log) := by
  induction log using List.reverseRecOn with
  | nil =>
    constructor
    · intro k _
      rfl
    · intro k s hs
      obtain ⟨team, rfl⟩ := mget_initMap_initStats tm k s hs
      simp [initStats, resultsOfTeam]
  | append_singleton l fm ih =>
    have : statsAfter tm (l ++ [fm]) = statsStep tm (statsAfter tm l) fm := by
      simp [statsAfter, List.foldl_append]
    rw [this]
    exact resultsInv_statsStep _ _ _ _ ih

-- ===== Locating a team's row in the built standings =====

theorem nodup_keys_eq (stats : StatsMap) (hnd : (keys stats).Nodup)
    (p q : ℕ × TeamStats) (hp : p ∈ stats) (hq : q ∈ stats) (hk : p.1 = q.1) : p = q := by
  induction stats with
  | nil => exact absurd hp (List.not_mem_nil p)
  | cons r stats ih =>
    rw [keys, List.map_cons] at hnd
    obtain ⟨h1, h2⟩ := List.nodup_cons.mp hnd
    rcases List.mem_cons.mp hp with rfl | hp2
    · rcases List.mem_cons.mp hq with rfl | hq2
      · rfl
      · exact absurd (hk ▸ List.mem_map_of_mem Prod.fst hq2) h1
    · rcases List.mem_cons.mp hq with rfl | hq2
      · exact absurd (hk ▸ List.mem_map_of_mem Prod.fst hp2) h1
      · exact ih h2 hp2 hq2

theorem find?_perm_unique {l l2 : List α} (p : α → Bool) (hperm : List.Perm l l2)
    (huniq : ∀ a ∈ l, ∀ b ∈ l, p a = true → p b = true → a = b) :
    l.find? p = l2.find? p := by
  cases hf : l.find? p with
  | none =>
    cases hf2 : l2.find? p with
    | none => rfl
    | some y =>
      have hy := List.mem_of_find?_eq_some hf2
      have hpy := List.find?_some hf2
      exact absurd hpy (List.find?_eq_none.mp hf y (hperm.mem_iff.mpr hy))
  | some x =>
    have hx := List.mem_of_find?_eq_some hf
    have hpx := List.find?_some hf
    cases hf2 : l2.find? p with
    | none =>
      exact absurd hpx (List.find?_eq_none.mp hf2 x (hperm.mem_iff.mp hx))
    | some y =>
      have hy := hperm.mem_iff.mpr (List.mem_of_find?_eq_some hf2)
      have hpy := List.find?_some hf2
      rw [huniq x hx y hy hpx hpy]

theorem eraseRank_mkStanding (s : TeamStats) : eraseRank (mkStanding s) = mkStanding s := rfl

theorem find?_rows (stats : StatsMap) (t : ℕ)
    (hids : ∀ p ∈ stats, (Prod.snd p).team.id = p.1)
    (hnd : (keys stats).Nodup) :
    (((stats.map Prod.snd).filter fun s => s.played ≠ 0).map mkStanding).find?
        (fun s => s.team.id == t) =
      (mget t stats).bind fun s => if s.played = 0 then none else some (mkStanding s) := by
  induction stats with
  | nil => simp [mget]
  | cons r stats ih =>
    obtain ⟨k, s⟩ := r
    rw [keys, List.map_cons] at hnd
    obtain ⟨hnd1, hnd2⟩ := List.nodup_cons.mp hnd
    have hidh : s.team.id = k := hids (k, s) (List.mem_cons_self _ _)
    have hids2 : ∀ p ∈ stats, (Prod.snd p).team.id = p.1 :=
      fun p hp => hids p (List.mem_cons_of_mem _ hp)
    have ihs := ih hids2 hnd2
    rw [mget_cons]
    simp only [List.map_cons, List.filter_cons, decide_eq_true_eq]
    by_cases hk : k = t
    · subst hk
      rw [if_pos rfl, Option.some_bind]
      by_cases hp : s.played = 0
      · rw [if_pos hp, if_neg (fun hc => hc hp)]
        apply List.find?_eq_none.mpr
        intro row hrow
        obtain ⟨s2, hs2, rfl⟩ := List.mem_map.mp hrow
        obtain ⟨hs2m, _⟩ := List.mem_filter.mp hs2
        obtain ⟨p, hpm, rfl⟩ := List.mem_map.mp hs2m
        have hnd1b : k ∉ List.map Prod.fst stats := hnd1
        have hpid := hids2 p hpm
        have hne : p.1 ≠ k := by
          intro hc
          apply hnd1b
          rw [← hc]
          show p.1 ∈ List.map Prod.fst stats
          exact List.mem_map_of_mem Prod.fst hpm
        simp [mkStanding, hpid, hne]
      · rw [if_neg hp, if_pos hp, List.map_cons]
        rw [List.find?_cons_of_pos _ (by simp [mkStanding, hidh])]
    · rw [if_neg hk]
      by_cases hp : s.played = 0
      · rw [if_neg (fun hc => hc hp)]
        exact ihs
      · rw [if_pos hp, List.map_cons, List.find?_cons_of_neg _ (by simp [mkStanding, hidh, hk])]
        exact ihs

theorem find?_posmap_erase (t : ℕ) (l : List Standing) : ∀ (n : ℕ),
    (((List.enumFrom n l).map fun p => { p.2 with position := p.1 + 1 }).find?
        (fun s => s.team.id == t)).map eraseRank =
      (l.find? fun s => s.team.id == t).map eraseRank := by
  induction l with
  | nil => intro n; rfl
  | cons x l ih =>
    intro n
    show ((((n, x) :: List.enumFrom (n + 1) l).map
        fun p => { p.2 with position := p.1 + 1 }).find? _).map eraseRank = _
    rw [List.map_cons]
    by_cases hpred : x.team.id = t
    · simp [List.find?_cons, hpred, eraseRank]
    · have h2 : (x.team.id == t) = false := by simp [hpred]
      simp only [List.find?_cons, h2]
      exact ih (n + 1)

theorem rowFor_buildStandings (tm : List (ℕ × Team)) (hwf : RosterWF tm)
    (log : List FinishedMatch) (t : ℕ) :
    (rowFor t (buildStandings log tm)).map eraseRank =
      (mget t (statsAfter tm log)).bind fun s =>
        if s.played = 0 then none else some (mkStanding s) := by
  have hids : ∀ p ∈ statsAfter tm log, (Prod.snd p).team.id = p.1 :=
    idsInv_statsAfter tm log hwf
  have hnd := keys_statsAfter_nodup tm log
  have huniq : ∀ a ∈ jsSortBy standingsCmpLe
        ((((statsAfter tm log).map Prod.snd).filter fun s => s.played ≠ 0).map mkStanding),
      ∀ b ∈ jsSortBy standingsCmpLe
        ((((statsAfter tm log).map Prod.snd).filter fun s => s.played ≠ 0).map mkStanding),
      (a.team.id == t) = true → (b.team.id == t) = true → a = b := by
    intro a ha b hb hpa hpb
    rw [(jsSortBy_perm _ _).mem_iff] at ha hb
    obtain ⟨sa, hsa, rfl⟩ := List.mem_map.mp ha
    obtain ⟨hsam, _⟩ := List.mem_filter.mp hsa
    obtain ⟨pa, hpam, rfl⟩ := List.mem_map.mp hsam
    obtain ⟨sb, hsb, rfl⟩ := List.mem_map.mp hb
    obtain ⟨hsbm, _⟩ := List.mem_filter.mp hsb
    obtain ⟨pb, hpbm, rfl⟩ := List.mem_map.mp hsbm
    have hka : pa.1 = t := by
      have := hids pa hpam
      simpa [mkStanding, this] using hpa
    have hkb : pb.1 = t := by
      have := hids pb hpbm
      simpa [mkStanding, this] using hpb
    rw [nodup_keys_eq (statsAfter tm log) hnd pa pb hpam hpbm (hka.trans hkb.symm)]
  unfold buildStandings rowFor
  simp only
  have henum : ∀ l : List Standing, l.enum = List.enumFrom 0 l := fun _ => rfl
  rw [henum, find?_posmap_erase,
    find?_perm_unique _ (jsSortBy_perm standingsCmpLe _) huniq,
    find?_rows _ _ hids hnd]
  cases mget t (statsAfter tm log) with
  | none => rfl
  | some s =>
    by_cases hp : s.played = 0
    · simp [hp]
    · simp [hp, eraseRank_mkStanding]

-- ===== Order properties of the standings comparator =====

theorem standingsCmpLe_trans (a b c : Standing) (hab : standingsCmpLe a b = true)
    (hbc : standingsCmpLe b c = true) : standingsCmpLe a c = true := by
  unfold standingsCmpLe at *
  split_ifs at * <;> simp_all <;> omega

theorem standingsCmpLe_total (a b : Standing) :
    standingsCmpLe a b = true ∨ standingsCmpLe b a = true := by
  unfold standingsCmpLe
  split_ifs <;> simp_all <;> omega

theorem standingsCmpLe_iff (a b : Standing) :
    standingsCmpLe a b = true ↔ standingsOrder a b := by
  unfold standingsCmpLe standingsOrder
  split_ifs <;> simp_all <;> omega

-- ===== The position-assigning map preserves order and places ranks =====

theorem pairwise_posmap (l : List Standing) :
    List.Pairwise standingsOrder l → ∀ n, List.Pairwise standingsOrder
      ((List.enumFrom n l).map fun p => { p.2 with position := p.1 + 1 }) := by
  induction l with
  | nil => intro _ n; exact List.Pairwise.nil
  | cons x l ih =>
    intro hp n
    obtain ⟨hx, hl⟩ := List.pairwise_cons.mp hp
    rw [show List.enumFrom n (x :: l) = (n, x) :: List.enumFrom (n + 1) l from rfl,
      List.map_cons]
    refine List.Pairwise.cons ?_ (ih hl (n + 1))
    intro q hq
    obtain ⟨p, hpm, hpq⟩ := List.mem_map.mp hq
    have hp2 : p.2 ∈ l := by
      have h3 := List.mem_map_of_mem Prod.snd hpm
      rwa [List.enumFrom_map_snd] at h3
    rw [← hpq]
    exact hx p.2 hp2

theorem posmap_get_position (l : List Standing) (i : ℕ)
    (h : i < (l.enum.map fun (p : ℕ × Standing) => { p.2 with position := p.1 + 1 }).length) :
    ((l.enum.map fun (p : ℕ × Standing) =>
        { p.2 with position := p.1 + 1 }).get ⟨i, h⟩).position = i + 1 := by
  have h2 : i < l.enum.length := by simpa using h
  rw [List.get_eq_getElem, List.getElem_map, List.getElem_enum l i h2]

-- ===== Membership facts used by the form conjunct =====

theorem mget_of_mem_nodup (stats : StatsMap) (hnd : (keys stats).Nodup)
    (k : ℕ) (s : TeamStats) (h : (k, s) ∈ stats) : mget k stats = some s := by
  cases hf : (stats.find? fun p => p.1 == k) with
  | none =>
    have := List.find?_eq_none.mp hf (k, s) h
    simp at this
  | some q =>
    have hq := List.mem_of_find?_eq_some hf
    have hpq := List.find?_some hf
    have hk : q.1 = k := by simpa using hpq
    have hqs : q = (k, s) := nodup_keys_eq stats hnd q (k, s) hq h (by simp [hk])
    rw [mget, hf, hqs]
    rfl

theorem mem_resultsOfMatchFor (t : ℕ) (m : FinishedMatch) (r : String)
    (hr : r ∈ resultsOfMatchFor t m) : r = "W" ∨ r = "D" ∨ r = "L" := by
  unfold resultsOfMatchFor at hr
  split at hr
  · rcases List.mem_append.mp hr with h | h <;> (split_ifs at h <;> simp_all)
  · simp at hr

theorem mem_resultsOfTeam (t : ℕ) (log : List FinishedMatch) (r : String)
    (hr : r ∈ resultsOfTeam t log) : r = "W" ∨ r = "D" ∨ r = "L" := by
  rw [resultsOfTeam, List.mem_flatMap] at hr
  obtain ⟨m, _, hm⟩ := hr
  exact mem_resultsOfMatchFor t m r hm

theorem joinComma_ne_empty : ∀ (l : List String), l ≠ [] → (∀ x ∈ l, x ≠ "") →
    joinComma l ≠ ""
  | [], h, _ => absurd rfl h
  | [x], _, hx => by simpa [joinComma] using hx x (by simp)
  | x :: y :: l, _, _ => by
    intro hc
    have hlen := congrArg String.length hc
    have h1 : String.length "," = 1 := rfl
    have h0 : String.length "" = 0 := rfl
    simp only [joinComma, String.length_append] at hlen
    omega

theorem drop_reverse_take (l : List String) (n : ℕ) :
    (l.drop (l.length - n)).reverse = l.reverse.take n := by
  rw [List.reverse_drop]
  rcases le_or_lt n l.length with h | h
  · rw [Nat.sub_sub_self h]
  · rw [Nat.sub_eq_zero_of_le h.le, Nat.sub_zero,
      List.take_of_length_le (by simpa using h.le),
      List.take_of_length_le (by simpa using h.le)]

/-- C6: for every match log and well-formed roster, `buildStandings`
returns rows pairwise sorted by points descending, then goal difference,
then goals for, then ascending team id; assigns `position` as the
1-based index in that order; and fills each row's `form` with the
team's five most recent chronological results, most recent first,
joined by commas. -/
theorem C6_standings_sorted_positions_form (tm : List (ℕ × Team)) (hwf : RosterWF tm)
    (log : List FinishedMatch) :
    List.Pairwise standingsOrder (buildStandings log tm) ∧
    (∀ i, ∀ h : i < (buildStandings log tm).length,
        ((buildStandings log tm).get ⟨i, h⟩).position = i + 1) ∧
    (∀ row ∈ buildStandings log tm,
        row.form = some (joinComma ((resultsOfTeam row.team.id log).reverse.take 5))) := by
  refine ⟨?_, ?_, ?_⟩
  · have h1 := jsSortBy_pairwise standingsCmpLe standingsCmpLe_trans standingsCmpLe_total
      ((((statsAfter tm log).map Prod.snd).filter fun s => s.played ≠ 0).map mkStanding)
    have h2 := h1.imp fun h => (standingsCmpLe_iff _ _).mp h
    exact pairwise_posmap _ h2 0
  · intro i h
    exact posmap_get_position _ i h
  · intro row hrow
    have hrow2 : row ∈ (List.enumFrom 0 (jsSortBy standingsCmpLe
        ((((statsAfter tm log).map Prod.snd).filter fun s => s.played ≠ 0).map
          mkStanding))).map
        (fun p => { p.2 with position := p.1 + 1 }) := hrow
    obtain ⟨p, hpm, hrowp⟩ := List.mem_map.mp hrow2
    have hp2 : p.2 ∈ jsSortBy standingsCmpLe
        ((((statsAfter tm log).map Prod.snd).filter fun s => s.played ≠ 0).map
          mkStanding) := by
      have h3 := List.mem_map_of_mem Prod.snd hpm
      rwa [List.enumFrom_map_snd] at h3
    rw [(jsSortBy_perm _ _).mem_iff] at hp2
    obtain ⟨s, hs, hsrow⟩ := List.mem_map.mp hp2
    obtain ⟨hsm, hplayed⟩ := List.mem_filter.mp hs
    obtain ⟨q, hqm, hq2⟩ := List.mem_map.mp hsm
    have hid : q.2.team.id = q.1 := idsInv_statsAfter tm log hwf q hqm
    have hget : mget q.1 (statsAfter tm log) = some q.2 :=
      mget_of_mem_nodup _ (keys_statsAfter_nodup tm log) q.1 q.2 hqm
    have hres := (resultsInv_statsAfter tm log).2 q.1 q.2 hget
    subst hq2
    subst hrowp
    rw [← hsrow]
    show (mkStanding q.2).form =
      some (joinComma ((resultsOfTeam q.2.team.id log).reverse.take 5))
    rw [hid, ← hres.1]
    have hne : q.2.results ≠ [] := by
      have hpl : q.2.played ≠ 0 := by simpa using hplayed
      rw [hres.2] at hpl
      intro hc
      rw [hc] at hpl
      simp at hpl
    have htake : (q.2.results.drop (q.2.results.length - 5)).reverse =
        q.2.results.reverse.take 5 := drop_reverse_take _ 5
    have hnem : q.2.results.reverse.take 5 ≠ [] := by
      intro hc
      rcases List.take_eq_nil_iff.mp hc with h | h
      · exact absurd h (by norm_num)
      · exact hne (by simpa using h)
    have hmem : ∀ x ∈ q.2.results.reverse.take 5, x ≠ "" := by
      intro x hx
      have hx2 : x ∈ q.2.results := List.mem_reverse.mp (List.mem_of_mem_take hx)
      rw [hres.1] at hx2
      rcases mem_resultsOfTeam _ _ _ hx2 with h | h | h <;> (rw [h]; decide)
    have hjoin : joinComma (q.2.results.reverse.take 5) ≠ "" :=
      joinComma_ne_empty _ hnem hmem
    show (if joinComma ((q.2.results.drop (q.2.results.length - 5)).reverse) = ""
        then none
        else some (joinComma ((q.2.results.drop (q.2.results.length - 5)).reverse)))
      = some (joinComma (q.2.results.reverse.take 5))
    rw [htake, if_neg hjoin]

/-- Witness for C6: the three-team fixture roster with its two-match
log satisfies the roster hypothesis and the sortedness, rank and form
conclusions. -/
theorem C6_standings_sorted_positions_form_witness :
    RosterWF c7Roster ∧
    (List.Pairwise standingsOrder (buildStandings c7Log c7Roster) ∧
      (∀ i, ∀ h : i < (buildStandings c7Log c7Roster).length,
          ((buildStandings c7Log c7Roster).get ⟨i, h⟩).position = i + 1) ∧
      (∀ row ∈ buildStandings c7Log c7Roster,
          row.form = some (joinComma ((resultsOfTeam row.team.id c7Log).reverse.take 5)))) :=
  ⟨by decide, C6_standings_sorted_positions_form c7Roster (by decide) c7Log⟩

/-- C7 (amended): advancing the processed prefix past a match leaves
every uninvolved team's standings row unchanged up to its `position`
field; the position itself can move, as `C7_counterexample` shows. -/
theorem C7_uninvolved_rows_stable_up_to_rank (tm : List (ℕ × Team)) (hwf : RosterWF tm)
    (log : List FinishedMatch) (i : ℕ) (hi : i < log.length) (t : ℕ)
    (hth : (log.get ⟨i, hi⟩).homeTeamId ≠ t) (hta : (log.get ⟨i, hi⟩).awayTeamId ≠ t) :
    (rowFor t (buildStandings (log.take (i + 1)) tm)).map eraseRank =
      (rowFor t (buildStandings (log.take i) tm)).map eraseRank := by
  rw [rowFor_buildStandings tm hwf (log.take (i + 1)) t,
    rowFor_buildStandings tm hwf (log.take i) t]
  have htake : log.take (i + 1) = log.take i ++ [log.get ⟨i, hi⟩] := by
    rw [List.get_eq_getElem, ← List.concat_eq_append, List.take_concat_get]
  have hstep : statsAfter tm (log.take (i + 1)) =
      statsStep tm (statsAfter tm (log.take i)) (log.get ⟨i, hi⟩) := by
    rw [htake]
    simp only [statsAfter, List.foldl_append, List.foldl_cons, List.foldl_nil]
  rw [hstep, mget_statsStep_uninvolved tm _ _ t (Ne.symm hth) (Ne.symm hta)]

/-- Witness for C7 (amended): in the fixture log, team 1 is uninvolved
in the second match, and its row after two matches equals its row after
one match once ranks are erased. -/
theorem C7_uninvolved_rows_stable_witness :
    (RosterWF c7Roster ∧ ∀ fm ∈ c7Log.drop 1, fm.homeTeamId ≠ 1 ∧ fm.awayTeamId ≠ 1) ∧
    (rowFor 1 (buildStandings (c7Log.take (1 + 1)) c7Roster)).map eraseRank =
      (rowFor 1 (buildStandings (c7Log.take 1) c7Roster)).map eraseRank :=
  ⟨⟨by decide, by decide⟩,
    C7_uninvolved_rows_stable_up_to_rank c7Roster (by decide) c7Log 1 (by decide) 1
      (by decide) (by decide)⟩

/-- Counterexample to C7 as stated: team 1 plays no part in the second
fixture match, yet its full standings row (position included) differs
between the one-match prefix and the two-match prefix, because team 2's
larger win lifts team 2 above team 1. -/
theorem C7_counterexample :
    (∀ fm ∈ c7Log.drop 1, fm.homeTeamId ≠ 1 ∧ fm.awayTeamId ≠ 1) ∧
    rowFor 1 (buildStandings (c7Log.take 2) c7Roster) ≠
      rowFor 1 (buildStandings (c7Log.take 1) c7Roster) := by decide

end BetBest
